import Mathlib

/-!
# AstroChat back end: contact graph and message ledger

A shallow embedding of the request handlers of `src/contacts/index.js` and
`src/messages/index.js`, of the `verifyToken` middleware they share, of the
socket.io handshake of the messages service and of the login, logout and
update-password handlers of `src/auth/index.js`.  The Firestore collections are lists of documents, the
list order standing for the order in which a query returns them.  A handler is a
function from the store (and the request data) to an `Outcome`: the HTTP status
and body, the store afterwards and the socket events emitted.

Conventions.
* Document ids are the store's auto-generated ids (`usersCollection.add`,
  `messagesCollection.add`); they are opaque keys without a `.`, so the field
  path built from the template `lastMessageWith.<contactId>.unread` addresses
  the entry keyed by `contactId`.
* A handler takes `userId`, the `req.user.id` attached by `verifyToken`.
* Store calls succeed, except `update` on a document that does not exist, which
  throws and sends the handler to its `catch` branch (HTTP 500).
* `FieldValue.serverTimestamp()` and `new Date()` are read from arguments, and so
  are the results of `bcrypt.compare`, `bcrypt.hash` and `jwt.sign`.
* A collection holds one document per id (`UniqueIds`); a statement that needs it
  says so.
-/

namespace AstroChat

/-- Identifier of a Firestore document. -/
abbrev DocId := Nat

/-- Firestore `Timestamp`: whole seconds since the epoch and the nanoseconds within the second. -/
structure Timestamp where
  seconds : Int
  nanoseconds : Nat
deriving DecidableEq, Repr

/-- The instant of `Timestamp.toDate()` in milliseconds since the epoch:
`seconds * 1000 + Math.round(nanoseconds / 1e6)`. -/
def Timestamp.toDate (t : Timestamp) : Int :=
  t.seconds * 1000 + (((t.nanoseconds + 500000) / 1000000 : Nat) : Int)

/-- Element of `pending_requests` (`newRequest` in `POST /friend-request`); `timestamp` is the
instant of `new Date().toISOString()` in milliseconds. -/
structure PendingRequest where
  senderId : DocId
  senderName : String
  senderAvatar : String
  timestamp : Int
deriving DecidableEq, Repr

/-- Value of `lastMessageWith[peer]`; a field that is not set is `none`. -/
structure LastMessage where
  timestamp : Option Timestamp
  content : Option String
  unread : Option Bool
deriving DecidableEq, Repr

/-- Document of `users_message_app`, with the fields the services read or write.  `email` and
`password` (the stored hash, missing on a Google account) are read by the auth service only and
default to an empty address and no hash; so do `isGoogleAccount` (a missing field is falsy) and
`updated_at`, written by the password update. -/
structure User where
  id : DocId
  name : String
  profile_picture_url : Option String
  type : String
  friend_code : String
  contacts : Option (List DocId)
  pending_requests : Option (List PendingRequest)
  lastMessageWith : Option (List (DocId × LastMessage))
  email : String := ""
  password : Option String := none
  isGoogleAccount : Bool := false
  updated_at : Option Timestamp := none
deriving DecidableEq, Repr

/-- Document of `messages`. -/
structure Message where
  id : DocId
  senderId : DocId
  receiverId : DocId
  content : String
  timestamp : Option Timestamp
  read : Bool
  participants : List DocId
deriving DecidableEq, Repr

/-- Document of `session_tokens`. -/
structure SessionToken where
  user_id : DocId
  token : String
  expires_date : Timestamp
deriving DecidableEq, Repr

/-- The three collections shared by the services. -/
structure Store where
  users : List User
  messages : List Message
  session_tokens : List SessionToken
deriving DecidableEq, Repr

/-- Element of the `messages` array of `GET /messages/:contactId`:
`{ id: doc.id, ...messageData, timestamp: <ISO string> }`, the timestamp in milliseconds. -/
structure MessageView where
  id : DocId
  senderId : DocId
  receiverId : DocId
  content : String
  timestamp : Int
  read : Bool
  participants : List DocId
deriving DecidableEq, Repr

/-- JSON body of a response. -/
inductive Body where
  | message (text : String)
  | messages (list : List MessageView)
  | sent (text : String) (messageId : DocId)
  | failure (text : String)
  | session (name type email friendCode token : String)
deriving DecidableEq, Repr

/-- A socket.io emission `io.to(room).emit(event, payload)`. -/
structure Emit where
  room : DocId
  event : String
  messageId : DocId
  senderId : DocId
  content : String
  timestamp : Timestamp
deriving DecidableEq, Repr

/-- What a handler does: the response, the store afterwards, the socket events emitted. -/
structure Outcome where
  status : Nat
  body : Body
  store : Store
  emitted : List Emit
deriving DecidableEq, Repr

/-- `usersCollection.doc(id).get()`: the document with that id, `none` when `!doc.exists`. -/
def findUser (s : Store) (id : DocId) : Option User :=
  s.users.find? (fun u => u.id == id)

/-- `usersCollection.doc(id).update(...)` on a document that exists: `f` gives the new fields. -/
def updateUser (s : Store) (id : DocId) (f : User → User) : Store :=
  { s with users := s.users.map (fun u => if u.id = id then f u else u) }

/-- `FieldValue.arrayUnion(x)` on an array field: `x` is added unless it is already there;
a field that is not set counts as the empty array. -/
def arrayUnion {α : Type} [DecidableEq α] (field : Option (List α)) (x : α) : List α :=
  let l := field.getD []
  if x ∈ l then l else l ++ [x]

/-- The object `newRequest` of `POST /friend-request`: `senderAvatar` is
`sender.profile_picture_url || ""`, `timestamp` the clock reading `now`. -/
def newRequest (sender : User) (now : Int) : PendingRequest :=
  { senderId := sender.id
    senderName := sender.name
    senderAvatar :=
      match sender.profile_picture_url with
      | some url => if url = "" then "" else url
      | none => ""
    timestamp := now }

/-- `POST /friend-request` (src/contacts/index.js:119-185). -/
def friendRequest (s : Store) (now : Int) (userId : DocId) (friendCode : String) : Outcome :=
  match findUser s userId with
  | none => ⟨404, .message "Usuario no encontrado", s, []⟩
  | some sender =>
    match s.users.find? (fun u => u.friend_code == friendCode) with
    | none => ⟨404, .message "Código de amigo no encontrado", s, []⟩
    | some receiver =>
      if sender.id = receiver.id then
        ⟨400, .message "No puedes enviarte una solicitud a ti mismo", s, []⟩
      else
        let senderContacts := sender.contacts.getD []
        if receiver.id ∈ senderContacts then
          ⟨400, .message "Este usuario ya es tu contacto", s, []⟩
        else
          let pendingRequests := receiver.pending_requests.getD []
          if pendingRequests.any (fun r => r.senderId == sender.id) then
            ⟨400, .message "Ya has enviado una solicitud a este usuario", s, []⟩
          else
            let s1 := updateUser s receiver.id (fun u =>
              { u with pending_requests := some (arrayUnion u.pending_requests (newRequest sender now)) })
            ⟨200, .message "Solicitud de amistad enviada", s1, []⟩

/-- `POST /accept-friend-request` (src/contacts/index.js:187-247). -/
def acceptFriendRequest (s : Store) (userId senderId : DocId) : Outcome :=
  match findUser s userId with
  | none => ⟨404, .message "Usuario no encontrado", s, []⟩
  | some receiver =>
    let pendingRequests := receiver.pending_requests.getD []
    match pendingRequests.findIdx? (fun r => r.senderId == senderId) with
    | none => ⟨404, .message "Solicitud no encontrada", s, []⟩
    | some requestIndex =>
      match findUser s senderId with
      | none => ⟨404, .message "Remitente no encontrado", s, []⟩
      | some _ =>
        let updatedRequests := pendingRequests.eraseIdx requestIndex
        let s1 := updateUser s userId (fun u =>
          { u with contacts := some (arrayUnion u.contacts senderId)
                   pending_requests := some updatedRequests })
        let s2 := updateUser s1 senderId (fun u =>
          { u with contacts := some (arrayUnion u.contacts userId) })
        ⟨200, .message "Solicitud aceptada", s2, []⟩

/-- `POST /reject-friend-request` (src/contacts/index.js:249-291). -/
def rejectFriendRequest (s : Store) (userId senderId : DocId) : Outcome :=
  match findUser s userId with
  | none => ⟨404, .message "Usuario no encontrado", s, []⟩
  | some user =>
    let pendingRequests := user.pending_requests.getD []
    match pendingRequests.findIdx? (fun r => r.senderId == senderId) with
    | none => ⟨404, .message "Solicitud no encontrada", s, []⟩
    | some requestIndex =>
      let updatedRequests := pendingRequests.eraseIdx requestIndex
      let s1 := updateUser s userId (fun u => { u with pending_requests := some updatedRequests })
      ⟨200, .message "Solicitud rechazada", s1, []⟩

/-- `userData.lastMessageWith[peer]`: the summary stored for `peer`, if any. -/
def lastMessageOf (u : User) (peer : DocId) : Option LastMessage :=
  (u.lastMessageWith.getD []).lookup peer

/-- The update `{ "lastMessageWith.<contactId>.unread": false }`: only the `unread` field of
the entry of `contactId` is written; the entry (and the map) is created when it is missing. -/
def setUnreadFalse (field : Option (List (DocId × LastMessage))) (contactId : DocId) :
    List (DocId × LastMessage) :=
  let m := field.getD []
  if m.any (fun e => e.1 == contactId) then
    m.map (fun e => if e.1 = contactId then (e.1, { e.2 with unread := some false }) else e)
  else
    m ++ [(contactId, { timestamp := none, content := none, unread := some false })]

/-- White space skipped by `parseInt` (ECMAScript `StrWhiteSpaceChar`). -/
def isStrWhiteSpaceChar (c : Char) : Bool :=
  let n := c.toNat
  n == 0x9 || n == 0xA || n == 0xB || n == 0xC || n == 0xD || n == 0x20 || n == 0xA0 ||
  n == 0x1680 || (0x2000 ≤ n && n ≤ 0x200A) || n == 0x2028 || n == 0x2029 || n == 0x202F ||
  n == 0x205F || n == 0x3000 || n == 0xFEFF

/-- Value of a character as a digit of the given radix. -/
def digitValue (radix : Nat) (c : Char) : Option Nat :=
  let n := c.toNat
  let v :=
    if 48 ≤ n ∧ n ≤ 57 then n - 48
    else if 97 ≤ n ∧ n ≤ 122 then n - 97 + 10
    else if 65 ≤ n ∧ n ≤ 90 then n - 65 + 10
    else radix
  if v < radix then some v else none

/-- The longest prefix of digits, most significant first. -/
def leadingDigits (radix : Nat) : List Char → List Nat
  | [] => []
  | c :: cs =>
    match digitValue radix c with
    | some v => v :: leadingDigits radix cs
    | none => []

/-- `Number.parseInt(text)` with no radix argument; `none` is `NaN`.  The value is kept exact:
it is only used as the end of a `slice`, where every value beyond the length acts alike. -/
def parseInt (text : String) : Option Int :=
  let cs := text.toList.dropWhile isStrWhiteSpaceChar
  let signed : Bool × List Char :=
    match cs with
    | '-' :: r => (true, r)
    | '+' :: r => (false, r)
    | _ => (false, cs)
  let based : Nat × List Char :=
    match signed.2 with
    | '0' :: 'x' :: r => (16, r)
    | '0' :: 'X' :: r => (16, r)
    | r => (10, r)
  let ds := leadingDigits based.1 based.2
  if ds = [] then none
  else
    let n : Nat := ds.foldl (fun acc d => acc * based.1 + d) 0
    some (if signed.1 then - (n : Int) else (n : Int))

/-- `messages.slice(0, end)`: a `NaN` end is 0, a negative end counts from the back. -/
def sliceTo {α : Type} (l : List α) (stop : Option Int) : List α :=
  match stop with
  | none => []
  | some e => if e < 0 then l.take (l.length - (-e).toNat) else l.take e.toNat

/-- The object pushed for a document of the conversation; a message without `timestamp`
gets the clock reading `now`. -/
def toView (now : Int) (m : Message) : MessageView :=
  { id := m.id
    senderId := m.senderId
    receiverId := m.receiverId
    content := m.content
    timestamp :=
      match m.timestamp with
      | some t => t.toDate
      | none => now
    read := m.read
    participants := m.participants }

/-- `GET /messages/:contactId` (src/messages/index.js:176-253).  `limit` is the query
parameter as text (`none`: omitted, default 50); `before` is `none` when the parameter is
omitted or empty, `some none` when `new Date(before)` is an invalid date, and
`some (some t)` when it is the instant `t` in milliseconds. -/
def getMessages (s : Store) (now : Int) (userId contactId : DocId)
    (limit : Option String) (before : Option (Option Int)) : Outcome :=
  let messagesSnapshot := s.messages.filter (fun m => decide (userId ∈ m.participants))
  if messagesSnapshot.isEmpty then
    ⟨200, .messages [], s, []⟩
  else
    let pushed := (messagesSnapshot.filter (fun m =>
      (m.senderId == userId && m.receiverId == contactId) ||
      (m.senderId == contactId && m.receiverId == userId))).map (toView now)
    let sorted := pushed.insertionSort (fun a b => a.timestamp ≤ b.timestamp)
    let filtered :=
      match before with
      | none => sorted
      | some none => sorted.filter (fun _ => false)
      | some (some beforeTimestamp) => sorted.filter (fun msg => decide (msg.timestamp < beforeTimestamp))
    let messages := sliceTo filtered
      (match limit with
       | none => some 50
       | some text => parseInt text)
    let stored := s.messages.map (fun m =>
      if userId ∈ m.participants ∧ m.receiverId = userId ∧ m.senderId = contactId ∧ m.read = false
      then { m with read := true } else m)
    ⟨200, .messages messages, { s with messages := stored }, []⟩

/-- `POST /send-message` (src/messages/index.js:256-322).  `receiverId` is `none` when the
body field is falsy; `t0`, `t1`, `t2` are the server timestamps of the three writes and
`newId` the id the store gives the new document. -/
def sendMessage (s : Store) (t0 t1 t2 : Timestamp) (newId : DocId) (senderId : DocId)
    (receiverId : Option DocId) (content : String) : Outcome :=
  match receiverId with
  | none => ⟨400, .message "Destinatario y contenido son requeridos", s, []⟩
  | some receiverId =>
    if content = "" then
      ⟨400, .message "Destinatario y contenido son requeridos", s, []⟩
    else
      match findUser s senderId with
      | none => ⟨404, .message "Usuario remitente no encontrado", s, []⟩
      | some senderData =>
        match senderData.contacts with
        | none => ⟨403, .message "El destinatario no es un contacto del remitente", s, []⟩
        | some contacts =>
          if receiverId ∉ contacts then
            ⟨403, .message "El destinatario no es un contacto del remitente", s, []⟩
          else
            let newMessage : Message :=
              { id := newId
                senderId := senderId
                receiverId := receiverId
                content := content
                timestamp := some t0
                read := false
                participants := [senderId, receiverId] }
            let s1 : Store := { s with messages := s.messages ++ [newMessage] }
            let senderSummary : LastMessage :=
              { timestamp := some t1, content := some content, unread := none }
            let receiverSummary : LastMessage :=
              { timestamp := some t2, content := some content, unread := some true }
            let s2 := updateUser s1 senderId (fun u =>
              { u with lastMessageWith := some [(receiverId, senderSummary)] })
            match findUser s2 receiverId with
            | none => ⟨500, .failure "Error interno del servidor", s2, []⟩
            | some _ =>
              let s3 := updateUser s2 receiverId (fun u =>
                { u with lastMessageWith := some [(senderId, receiverSummary)] })
              ⟨201, .sent "Mensaje enviado exitosamente" newId, s3, []⟩

/-- The query `where("receiverId", "==", userId).where("senderId", "==", contactId)
.where("read", "==", false)` on `messages`, of `POST /mark-read` and `GET /contacts`. -/
def unreadQuery (s : Store) (userId contactId : DocId) : List Message :=
  s.messages.filter (fun m =>
    m.receiverId == userId && m.senderId == contactId && m.read == false)

/-- `POST /mark-read/:contactId` (src/messages/index.js:325-359). -/
def markRead (s : Store) (userId contactId : DocId) : Outcome :=
  let unreadMessagesQuery := unreadQuery s userId contactId
  if unreadMessagesQuery.isEmpty then
    ⟨200, .message "No hay mensajes sin leer", s, []⟩
  else
    match findUser s userId with
    | none => ⟨500, .failure "Error interno del servidor", s, []⟩
    | some _ =>
      let s1 := updateUser s userId (fun u =>
        { u with lastMessageWith := some (setUnreadFalse u.lastMessageWith contactId) })
      let stored := s1.messages.map (fun m =>
        if m.receiverId = userId ∧ m.senderId = contactId ∧ m.read = false
        then { m with read := true } else m)
      ⟨200, .message "Mensajes marcados como leídos", { s1 with messages := stored }, []⟩

/-- The contact list of a user, as the handlers read it (`contacts || []`); empty for an id
without a document. -/
def contactsOf (s : Store) (id : DocId) : List DocId :=
  match findUser s id with
  | some u => u.contacts.getD []
  | none => []

/-- The pending queue of a user, as the handlers read it (`pending_requests || []`). -/
def pendingOf (s : Store) (id : DocId) : List PendingRequest :=
  match findUser s id with
  | some u => u.pending_requests.getD []
  | none => []

/-- Contacts are symmetric: `a` is a contact of `b` exactly when `b` is a contact of `a`. -/
def ContactsSymmetric (s : Store) : Prop :=
  ∀ a b : DocId, a ∈ contactsOf s b ↔ b ∈ contactsOf s a

/-- The flag `lastMessageWith[peer].unread` on the record of `id`, when it is set. -/
def unreadFlag (s : Store) (id peer : DocId) : Option Bool :=
  match findUser s id with
  | some u => (lastMessageOf u peer).bind (fun e => e.unread)
  | none => none

/-- The count of the unread query of `GET /contacts`: messages from `contactId` to `userId`
with `read == false`. -/
def unreadCount (s : Store) (userId contactId : DocId) : Nat :=
  (unreadQuery s userId contactId).length

/-- The document written by `POST /api/register` (`newUser`, src/auth/index.js:538-548),
under the id the store gives it. -/
def registeredUser (id : DocId) (name friendCode : String) : User :=
  { id := id
    name := name
    profile_picture_url := none
    type := "mortal"
    friend_code := friendCode
    contacts := some []
    pending_requests := some []
    lastMessageWith := none }

/-- Two freshly registered users, ids 1 and 2, friend codes `AAA111` and `BBB222`. -/
def twoUsers : Store :=
  { users := [registeredUser 1 "Ana" "AAA111", registeredUser 2 "Beto" "BBB222"]
    messages := []
    session_tokens := [] }

/-- The store after user 1 has sent a friend request to the friend code of user 2. -/
def requested : Store := (friendRequest twoUsers 1000 1 "BBB222").store

/-- The store after user 2 has, in turn, sent a friend request to the friend code of user 1:
both directions are pending. -/
def crossed : Store := (friendRequest requested 2000 2 "AAA111").store

/-- Two freshly registered users `A` and `B`, no messages; the session tokens are arbitrary. -/
def freshPair (idA idB : DocId) (nameA nameB codeA codeB : String)
    (tokens : List SessionToken) : Store :=
  { users := [registeredUser idA nameA codeA, registeredUser idB nameB codeB]
    messages := []
    session_tokens := tokens }

/-- The store after user 2 has accepted the request of user 1. -/
def accepted : Store := (acceptFriendRequest requested 2 1).store

/-- The store after user 1 has then sent "hello" to user 2 (message id 77). -/
def helloSent : Store := (sendMessage accepted ⟨5, 0⟩ ⟨5, 1⟩ ⟨5, 2⟩ 77 1 (some 2) "hello").store

/-- The store after user 2 has then listed the conversation with user 1. -/
def helloListed : Store := (getMessages helloSent 9000 2 1 none none).store

/-- Three freshly registered users, ids 1, 2 and 3. -/
def threeUsers : Store :=
  { users := [registeredUser 1 "Ana" "AAA111", registeredUser 2 "Beto" "BBB222",
      registeredUser 3 "Caro" "CCC333"]
    messages := []
    session_tokens := [] }

/-- The store after user 1 has requested users 2 and 3 by their friend codes and both have
accepted: user 1 has the contacts 2 and 3. -/
def bothFriends : Store :=
  (acceptFriendRequest
    (friendRequest
      (acceptFriendRequest (friendRequest threeUsers 1000 1 "BBB222").store 2 1).store
      2000 1 "CCC333").store 3 1).store

/-- The store after user 1 has then sent "hola" to user 3 (message id 76). -/
def holaSent : Store := (sendMessage bothFriends ⟨4, 0⟩ ⟨4, 1⟩ ⟨4, 2⟩ 76 1 (some 3) "hola").store

/-- The summary `lastMessageWith[peer]` on the record of `id`, if both exist. -/
def summaryOf (s : Store) (id peer : DocId) : Option LastMessage :=
  (findUser s id).bind (fun u => lastMessageOf u peer)

/-- A store in which user 1 lists the contact 9, an id without a document. -/
def danglingContact : Store :=
  { users := [{ registeredUser 1 "Ana" "AAA111" with contacts := some [9] }]
    messages := []
    session_tokens := [] }

/-- A store in which user 1 lists itself as a contact. -/
def selfContact : Store :=
  { users := [{ registeredUser 1 "Ana" "AAA111" with contacts := some [1] }]
    messages := []
    session_tokens := [] }

/-- A collection holds one document per id: the ids of the user documents are distinct. -/
def UniqueIds (s : Store) : Prop := (s.users.map (fun u => u.id)).Nodup

/-- The `messages` array of a response; empty for a response of another shape. -/
def listed (o : Outcome) : List MessageView :=
  match o.body with
  | .messages l => l
  | _ => []

/-- The documents of the query `where("participants", "array-contains", userId)`, in the order
the store returns them, as the handler would push them. -/
def queried (s : Store) (now : Int) (userId : DocId) : List MessageView :=
  (s.messages.filter (fun m => decide (userId ∈ m.participants))).map (toView now)

/-- The stored messages of the conversation of `userId` with `contactId`: those the query for
`userId` returns whose sender and receiver are the two users. -/
def conversation (s : Store) (userId contactId : DocId) : List Message :=
  s.messages.filter (fun m => decide (userId ∈ m.participants) &&
    ((m.senderId == userId && m.receiverId == contactId) ||
     (m.senderId == contactId && m.receiverId == userId)))

/-- The test `new Date(msg.timestamp) < beforeTimestamp` of the `before` filter; no filter when
the parameter is omitted, and `false` throughout for an invalid date. -/
def isBefore (before : Option (Option Int)) (v : MessageView) : Bool :=
  match before with
  | none => true
  | some none => false
  | some (some t) => decide (v.timestamp < t)

/-- The value `Number.parseInt(limit)` of the handler, 50 when the parameter is omitted. -/
def limitValue (limit : Option String) : Option Int :=
  match limit with
  | none => some 50
  | some text => parseInt text

/-- A stored message after the read-marking batch of `GET /messages/:contactId`. -/
def markedRead (userId contactId : DocId) (m : Message) : Message :=
  if userId ∈ m.participants ∧ m.receiverId = userId ∧ m.senderId = contactId ∧ m.read = false
  then { m with read := true } else m

/-- A returned message with its read flag left out of account. -/
def MessageView.withoutRead (v : MessageView) : MessageView := { v with read := false }

/-- A store with one message from user 1 to user 2 that carries no timestamp. -/
def undated : Store :=
  { accepted with messages := [⟨77, 1, 2, "hello", none, false, [1, 2]⟩] }

/-- The store after user 1 has sent "hello" and then "again" to user 2. -/
def twoHellos : Store :=
  (sendMessage helloSent ⟨6, 0⟩ ⟨6, 1⟩ ⟨6, 2⟩ 78 1 (some 2) "again").store

/-- A store in which an older message from user 1 to user 2 lists no participants. -/
def unindexed : Store :=
  { accepted with
    messages := [⟨76, 1, 2, "old", some ⟨4, 0⟩, false, []⟩,
      ⟨77, 1, 2, "hello", some ⟨5, 0⟩, false, [1, 2]⟩] }

/-- `Timestamp.fromDate(date)` for the instant `ms` (milliseconds since the epoch):
`seconds = Math.floor(ms / 1000)`, `nanoseconds = (ms - seconds * 1000) * 1e6`. -/
def Timestamp.fromDate (ms : Int) : Timestamp :=
  { seconds := ms / 1000, nanoseconds := (ms % 1000).toNat * 1000000 }

/-- `text.split(" ")` on the characters of `text`. -/
def splitSpaces : List Char → List (List Char)
  | [] => [[]]
  | c :: cs =>
    if c = ' ' then [] :: splitSpaces cs
    else
      match splitSpaces cs with
      | [] => [[c]]
      | piece :: pieces => (c :: piece) :: pieces

/-- `req.headers["authorization"]?.split(" ")[1]`; `none` is `undefined`. -/
def bearerToken (authorization : Option String) : Option String :=
  match authorization with
  | none => none
  | some header => ((splitSpaces header.toList)[1]?).map String.mk

/-- The object attached to the request as `req.user`. -/
structure ReqUser where
  id : DocId
  type : String
deriving DecidableEq, Repr

/-- What the middleware does with a request: answer it, or call `next()` with `req.user` set. -/
inductive Verdict where
  | reject (status : Nat) (message : String)
  | next (user : ReqUser)
deriving DecidableEq, Repr

/-- `verifyToken(allowedTypes)` (src/contacts/index.js:60-115, the same in the messages and
chats services); `now` is the clock reading `new Date()` in milliseconds. -/
def verifyToken (allowedTypes : List String) (s : Store) (now : Int)
    (authorization : Option String) : Verdict :=
  match bearerToken authorization with
  | none => .reject 401 "Acceso denegado. Token no proporcionado."
  | some token =>
    if token = "" then
      .reject 401 "Acceso denegado. Token no proporcionado."
    else
      match s.session_tokens.find? (fun t => t.token == token) with
      | none => .reject 401 "Token inválido o no encontrado."
      | some tokenData =>
        if tokenData.expires_date.toDate < now then
          .reject 401 "Token ha expirado."
        else
          match findUser s tokenData.user_id with
          | none => .reject 401 "Usuario no encontrado."
          | some userData =>
            if userData.type ∉ allowedTypes then
              .reject 403 "Acceso denegado. Permisos insuficientes."
            else
              .next { id := tokenData.user_id, type := userData.type }

/-- A route `app.post(path, verifyToken(allowedTypes), handler)`: the handler runs only when the
middleware calls `next()`, on the store the middleware read. -/
def guarded (allowedTypes : List String) (handler : Store → ReqUser → Outcome) (s : Store)
    (now : Int) (authorization : Option String) : Outcome :=
  match verifyToken allowedTypes s now authorization with
  | .reject status message => ⟨status, .message message, s, []⟩
  | .next user => handler s user

/-- `saveToken(userId, token, expiresAt)` (src/auth/index.js:72-82). -/
def saveToken (s : Store) (userId : DocId) (token : String) (expiresAt : Int) : Store :=
  { s with
    session_tokens := s.session_tokens ++
      [{ user_id := userId, token := token, expires_date := Timestamp.fromDate expiresAt }] }

/-- `POST /api/login` (src/auth/index.js:136-188).  `now` is `Date.now()`; `compare` stands for
`bcrypt.compare` and `newToken` for the value `generateToken` returns (`jwt.sign`). -/
def login (s : Store) (now : Int) (compare : String → String → Bool) (newToken : String)
    (email password : String) (rememberMe : Bool) : Outcome :=
  match s.users.find? (fun u => u.email == email) with
  | none => ⟨401, .failure "Invalid credentials", s, []⟩
  | some user =>
    match user.password with
    | none => ⟨402, .failure "No password, google account", s, []⟩
    | some hash =>
      if hash = "" then
        ⟨402, .failure "No password, google account", s, []⟩
      else if compare password hash = false then
        ⟨401, .failure "Invalid credentials", s, []⟩
      else
        let expiresAt := now + (if rememberMe then 30 else 1) * 24 * 60 * 60 * 1000
        let s1 := saveToken s user.id newToken expiresAt
        ⟨200, .session user.name user.type user.email user.friend_code newToken, s1, []⟩

/-- `POST /api/logout` (src/auth/index.js:190-207): the first document of the query on `token`
is deleted, if there is one. -/
def logout (s : Store) (session_token : String) : Outcome :=
  let tokenSnapshot := s.session_tokens.filter (fun t => t.token == session_token)
  if tokenSnapshot.isEmpty then
    ⟨200, .message "Token eliminado exitosamente!.", s, []⟩
  else
    ⟨200, .message "Token eliminado exitosamente!.",
      { s with session_tokens := s.session_tokens.eraseP (fun t => t.token == session_token) }, []⟩

/-- A call on the contacts service by an authenticated user. -/
inductive ContactCall where
  | request (now : Int) (userId : DocId) (friendCode : String)
  | accept (userId senderId : DocId)
  | reject (userId senderId : DocId)
deriving DecidableEq, Repr

/-- The store after one call on the contacts service. -/
def runCall (s : Store) : ContactCall → Store
  | .request now userId friendCode => (friendRequest s now userId friendCode).store
  | .accept userId senderId => (acceptFriendRequest s userId senderId).store
  | .reject userId senderId => (rejectFriendRequest s userId senderId).store

/-- The store after a sequence of calls on the contacts service, in order. -/
def runCalls (s : Store) (calls : List ContactCall) : Store :=
  calls.foldl runCall s

/-- No user has a pending request. -/
def NoPending (s : Store) : Prop :=
  ∀ u ∈ s.users, u.pending_requests.getD [] = []

/-- Both directions are pending between `a` and `b`. -/
def MutualPending (s : Store) (a b : DocId) : Prop :=
  (∃ e ∈ pendingOf s b, e.senderId = a) ∧ (∃ e ∈ pendingOf s a, e.senderId = b)

/-- A store with one account that has a password, and no session. -/
def oneAccount : Store :=
  { users := [{ registeredUser 1 "Ana" "AAA111" with email := "a@x.com", password := some "hash" }]
    messages := []
    session_tokens := [] }

/-- A session record whose user has no document. -/
def orphanSession : Store :=
  { oneAccount with session_tokens := [⟨9, "tok9", Timestamp.fromDate 90000000⟩] }

/-- The store after the account has logged in twice and `generateToken` returned the same
value both times. -/
def twiceLoggedIn : Store :=
  (login (login oneAccount 1000 (fun _ _ => true) "jwt" "a@x.com" "pw" false).store
    1500 (fun _ _ => true) "jwt" "a@x.com" "pw" false).store

/-- The store after the account has logged in once (token `jwt`, issued at instant 1000). -/
def loggedIn : Store :=
  (login oneAccount 1000 (fun _ _ => true) "jwt" "a@x.com" "pw" false).store

/-- A pending queue owned by `owner` is in order: at most one entry per sender, and no entry
sent by the owner. -/
def QueueOk (owner : DocId) (queue : List PendingRequest) : Prop :=
  (∀ sender : DocId, queue.countP (fun e => e.senderId == sender) ≤ 1) ∧
  ∀ e ∈ queue, e.senderId ≠ owner

/-- Every user's pending queue is in order. -/
def QueuesOk (s : Store) : Prop :=
  ∀ u ∈ s.users, QueueOk u.id (u.pending_requests.getD [])

/-- What an operation run for user `U` about contact `C` may do to a stored message `m`,
giving `m'`: every field but `read` is kept, `read` never goes back to `false`, and it goes
from `false` to `true` only on a message sent by `C` to `U`. -/
def Kept (U C : DocId) (m m' : Message) : Prop :=
  m'.id = m.id ∧ m'.senderId = m.senderId ∧ m'.receiverId = m.receiverId ∧
  m'.content = m.content ∧ m'.participants = m.participants ∧ m'.timestamp = m.timestamp ∧
  (m.read = true → m'.read = true) ∧
  (m.read = false → m'.read = true → m.receiverId = U ∧ m.senderId = C)

/-- What the handshake middleware `io.use` does with a connection: refuse it with an error, or
call `next()` with `socket.userId` set. -/
inductive Handshake where
  | refused (error : String)
  | accepted (userId : DocId)
deriving DecidableEq, Repr

/-- The middleware `io.use(...)` (src/messages/index.js:123-151); `token` is
`socket.handshake.auth.token` and `now` the clock reading `new Date()` in milliseconds. -/
def socketAuth (s : Store) (now : Int) (token : Option String) : Handshake :=
  match token with
  | none => .refused "Authentication error"
  | some token =>
    if token = "" then
      .refused "Authentication error"
    else
      match s.session_tokens.find? (fun t => t.token == token) with
      | none => .refused "Invalid token"
      | some tokenData =>
        if tokenData.expires_date.toDate < now then
          .refused "Token expired"
        else
          .accepted tokenData.user_id

/-- The rooms a connection attempt ends up in: `io.on("connection")` runs for an accepted socket
only and joins the room named by `socket.userId` (src/messages/index.js:154-158). -/
def roomsJoined (s : Store) (now : Int) (token : Option String) : List DocId :=
  match socketAuth s now token with
  | .refused _ => []
  | .accepted userId => [userId]

/-- Line terminators, which `.` of a regular expression does not match: LF, CR, U+2028,
U+2029. -/
def isLineTerminator (c : Char) : Bool :=
  c.toNat == 0xA || c.toNat == 0xD || c.toNat == 0x2028 || c.toNat == 0x2029

/-- The class `[a-z]`. -/
def isLowerLetter (c : Char) : Bool := 97 ≤ c.toNat && c.toNat ≤ 122

/-- The class `[A-Z]`. -/
def isUpperLetter (c : Char) : Bool := 65 ≤ c.toNat && c.toNat ≤ 90

/-- The class `\d`, the digits 0 to 9. -/
def isDigitChar (c : Char) : Bool := 48 ≤ c.toNat && c.toNat ≤ 57

/-- The class of special characters of `passwordRegex`, by code point, in the order of the
source: ! @ # $ % ^ & * ( ) , . ? " : { } | < >. -/
def isSpecialChar (c : Char) : Bool :=
  [33, 64, 35, 36, 37, 94, 38, 42, 40, 41, 44, 46, 63, 34, 58, 123, 125, 124, 60, 62].contains
    c.toNat

/-- The class of the body of `passwordRegex`: letters, digits and the special characters. -/
def inPasswordClass (c : Char) : Bool :=
  isUpperLetter c || isLowerLetter c || isDigitChar c || isSpecialChar c

/-- A lookahead `(?=.*[...])` tried at the start of the characters: some character of the class
stands after a run of characters that `.` matches. -/
def lookahead (cls : Char → Bool) : List Char → Bool
  | [] => false
  | c :: cs => cls c || (!isLineTerminator c && lookahead cls cs)

/-- `passwordRegex.test(newPassword)` (src/auth/index.js:605-607): the four lookaheads at the
start, then at least 8 characters of the class up to the end of the input.  Every character of
the class is one UTF-16 unit, so the count of characters is the count of units. -/
def passwordRegexTest (newPassword : String) : Bool :=
  lookahead isLowerLetter newPassword.toList && lookahead isUpperLetter newPassword.toList &&
  lookahead isDigitChar newPassword.toList && lookahead isSpecialChar newPassword.toList &&
  newPassword.toList.all inPasswordClass && decide (8 ≤ newPassword.toList.length)

/-- `POST /api/update-password` (src/auth/index.js:573-641).  `hashedPassword` stands for the
result of `bcrypt.hash(newPassword, 10)` and `t` for the server timestamp of the update. -/
def updatePassword (s : Store) (t : Timestamp) (hashedPassword : String)
    (email newPassword : String) : Outcome :=
  if email = "" ∨ newPassword = "" then
    ⟨400, .message "Correo electrónico y nueva contraseña son requeridos", s, []⟩
  else
    match s.users.find? (fun u => u.email == email) with
    | none => ⟨404, .message "Usuario no encontrado", s, []⟩
    | some userDoc =>
      if userDoc.isGoogleAccount then
        ⟨400, .message ("No se puede cambiar la contraseña de una cuenta de Google. " ++
          "Por favor, utiliza el inicio de sesión con Google."), s, []⟩
      else if passwordRegexTest newPassword = false then
        ⟨400, .message ("La contraseña debe tener al menos 8 caracteres, una mayúscula, " ++
          "una minúscula, un número y un carácter especial"), s, []⟩
      else
        let s1 := updateUser s userDoc.id (fun u =>
          { u with password := some hashedPassword, updated_at := some t })
        let s2 : Store :=
          { s1 with session_tokens := s1.session_tokens.filter (fun k => !(k.user_id == userDoc.id)) }
        ⟨200, .message "Contraseña actualizada correctamente", s2, []⟩

/-- What the message of the 400 answer asks of a password: at least 8 characters, an uppercase
letter, a lowercase letter, a digit and a special character. -/
def MeetsStatedRequirements (p : String) : Prop :=
  8 ≤ p.length ∧ (∃ c ∈ p.toList, isUpperLetter c = true) ∧
  (∃ c ∈ p.toList, isLowerLetter c = true) ∧ (∃ c ∈ p.toList, isDigitChar c = true) ∧
  (∃ c ∈ p.toList, isSpecialChar c = true)

/-! ## Lemmas and theorems -/

theorem findUser_id {s : Store} {id : DocId} {u : User} (h : findUser s id = some u) : u.id = id := by
  have := List.find?_some h
  simpa using this

theorem findUser_updateUser (s : Store) (id x : DocId) (f : User → User)
    (hf : ∀ u, (f u).id = u.id) :
    findUser (updateUser s id f) x
      = (findUser s x).map (fun u => if u.id = id then f u else u) := by
  unfold findUser updateUser
  simp only [List.find?_map]
  congr 1
  congr 1
  funext u
  by_cases h : u.id = id <;> simp [h, hf]

theorem mem_arrayUnion {α : Type} [DecidableEq α] (field : Option (List α)) (x a : α) :
    a ∈ arrayUnion field x ↔ a ∈ field.getD [] ∨ a = x := by
  unfold arrayUnion
  by_cases h : x ∈ field.getD []
  · simp only [h, if_true]
    constructor
    · exact Or.inl
    · rintro (h1 | h1)
      · exact h1
      · exact h1 ▸ h
  · simp [h]

theorem findIdx?_isSome_of_mem {α : Type} (p : α → Bool) (l : List α) (a : α) (ha : a ∈ l)
    (hp : p a = true) : ∃ i, l.findIdx? p = some i := by
  cases h : l.findIdx? p with
  | some i => exact ⟨i, rfl⟩
  | none =>
    rw [List.findIdx?_eq_none_iff] at h
    have := h a ha
    simp [hp] at this

/-- The store written by the batch of a successful accept. -/
theorem acceptFriendRequest_eq {s : Store} {R S : DocId} {r sd : User} {i : Nat}
    (hr : findUser s R = some r)
    (hi : (r.pending_requests.getD []).findIdx? (fun e => e.senderId == S) = some i)
    (hs : findUser s S = some sd) :
    acceptFriendRequest s R S =
      ⟨200, .message "Solicitud aceptada",
        updateUser
          (updateUser s R (fun u =>
            { u with contacts := some (arrayUnion u.contacts S)
                     pending_requests := some ((r.pending_requests.getD []).eraseIdx i) }))
          S (fun u => { u with contacts := some (arrayUnion u.contacts R) }), []⟩ := by
  simp only [acceptFriendRequest, hr, hi, hs]

theorem acceptFriendRequest_inv {s : Store} {R S : DocId}
    (h : (acceptFriendRequest s R S).status = 200) :
    ∃ r sd i, findUser s R = some r ∧
      (r.pending_requests.getD []).findIdx? (fun e => e.senderId == S) = some i ∧
      findUser s S = some sd := by
  unfold acceptFriendRequest at h
  cases hr : findUser s R with
  | none => simp [hr] at h
  | some r =>
    cases hi : (r.pending_requests.getD []).findIdx? (fun e => e.senderId == S) with
    | none => simp [hr, hi] at h
    | some i =>
      cases hs : findUser s S with
      | none => simp [hr, hi, hs] at h
      | some sd => exact ⟨r, sd, i, rfl, hi, rfl⟩

theorem mem_contactsOf_accept {s : Store} {R S : DocId} {r sd : User} (l : List PendingRequest)
    (hr : findUser s R = some r) (hs : findUser s S = some sd) (a x : DocId) :
    a ∈ contactsOf
        (updateUser
          (updateUser s R (fun u =>
            { u with contacts := some (arrayUnion u.contacts S), pending_requests := some l }))
          S (fun u => { u with contacts := some (arrayUnion u.contacts R) })) x
      ↔ a ∈ contactsOf s x ∨ (x = R ∧ a = S) ∨ (x = S ∧ a = R) := by
  unfold contactsOf
  rw [findUser_updateUser _ _ _ _ ?_, findUser_updateUser _ _ _ _ ?_]
  rotate_left
  · intro u; rfl
  · intro u; rfl
  cases hx : findUser s x with
  | none =>
    have h1 : x ≠ R := by rintro rfl; simp [hr] at hx
    have h2 : x ≠ S := by rintro rfl; simp [hs] at hx
    simp [h1, h2]
  | some u =>
    have hu : u.id = x := findUser_id hx
    by_cases h1 : x = R
    · subst h1
      by_cases h2 : x = S
      · subst h2
        simp [hu, mem_arrayUnion]
      · have h3 : ¬ S = x := fun h => h2 h.symm
        simp [hu, h2, h3, mem_arrayUnion]
    · by_cases h2 : x = S
      · subst h2
        have h3 : ¬ R = x := fun h => h1 h.symm
        simp [hu, h1, h3, mem_arrayUnion]
      · simp [hu, h1, h2]

theorem contactsSymmetric_of_no_contacts (s : Store)
    (h : ∀ u ∈ s.users, u.contacts.getD [] = []) : ContactsSymmetric s := by
  intro a b
  have key : ∀ x, contactsOf s x = [] := by
    intro x
    unfold contactsOf
    cases hx : findUser s x with
    | none => rfl
    | some u => exact h u (List.mem_of_find?_eq_some hx)
  simp [key]

/-- C1: in a store with symmetric contacts, when the receiver `R` holds a pending entry sent
by `S` and both user documents exist, accept-friend-request(R, S) succeeds, afterwards `S` is
in `R.contacts` and `R` is in `S.contacts`, and contacts are still symmetric for all users. -/
theorem accept_links_both_and_keeps_symmetry (s : Store) (R S : DocId) (r sd : User)
    (hsym : ContactsSymmetric s)
    (hr : findUser s R = some r) (hs : findUser s S = some sd)
    (hp : ∃ e ∈ r.pending_requests.getD [], e.senderId = S) :
    (acceptFriendRequest s R S).status = 200 ∧
    S ∈ contactsOf (acceptFriendRequest s R S).store R ∧
    R ∈ contactsOf (acceptFriendRequest s R S).store S ∧
    ContactsSymmetric (acceptFriendRequest s R S).store := by
  obtain ⟨e, he, heS⟩ := hp
  obtain ⟨i, hi⟩ := findIdx?_isSome_of_mem (fun e => e.senderId == S) _ e he (by simp [heS])
  rw [acceptFriendRequest_eq hr hi hs]
  refine ⟨rfl, ?_, ?_, ?_⟩
  · exact (mem_contactsOf_accept _ hr hs S R).mpr (Or.inr (Or.inl ⟨rfl, rfl⟩))
  · exact (mem_contactsOf_accept _ hr hs R S).mpr (Or.inr (Or.inr ⟨rfl, rfl⟩))
  · intro a b
    show a ∈ contactsOf _ b ↔ b ∈ contactsOf _ a
    rw [mem_contactsOf_accept _ hr hs a b, mem_contactsOf_accept _ hr hs b a, hsym a b]
    constructor
    · rintro (h | ⟨h1, h2⟩ | ⟨h1, h2⟩)
      · exact Or.inl h
      · exact Or.inr (Or.inr ⟨h2, h1⟩)
      · exact Or.inr (Or.inl ⟨h2, h1⟩)
    · rintro (h | ⟨h1, h2⟩ | ⟨h1, h2⟩)
      · exact Or.inl h
      · exact Or.inr (Or.inr ⟨h2, h1⟩)
      · exact Or.inr (Or.inl ⟨h2, h1⟩)

/-- C1 at a concrete store: user 2 accepts the pending request of user 1. -/
theorem accept_links_both_and_keeps_symmetry_witness :
    (acceptFriendRequest requested 2 1).status = 200 ∧
    1 ∈ contactsOf (acceptFriendRequest requested 2 1).store 2 ∧
    2 ∈ contactsOf (acceptFriendRequest requested 2 1).store 1 ∧
    ContactsSymmetric (acceptFriendRequest requested 2 1).store :=
  accept_links_both_and_keeps_symmetry requested 2 1
    { registeredUser 2 "Beto" "BBB222" with
      pending_requests := some [{ senderId := 1, senderName := "Ana", senderAvatar := "", timestamp := 1000 }] }
    (registeredUser 1 "Ana" "AAA111")
    (contactsSymmetric_of_no_contacts requested (by decide))
    (by decide) (by decide)
    ⟨{ senderId := 1, senderName := "Ana", senderAvatar := "", timestamp := 1000 }, by decide, rfl⟩

theorem eraseIdx_findIdx? {α : Type} (p : α → Bool) (l : List α) (i : Nat)
    (h : l.findIdx? p = some i) : l.eraseIdx i = l.eraseP p := by
  induction l generalizing i with
  | nil => simp at h
  | cons x xs ih =>
    rw [List.findIdx?_cons] at h
    by_cases hx : p x = true
    · simp [hx] at h
      subst h
      simp [List.eraseP_cons, hx]
    · simp only [hx] at h
      rw [List.findIdx?_succ] at h
      cases hj : xs.findIdx? p with
      | none => simp [hj] at h
      | some j =>
        simp [hj] at h
        subst h
        simp [List.eraseP_cons, hx, ih j hj]

theorem not_mem_eraseP_of_countP_le_one {α : Type} (p : α → Bool) (l : List α)
    (h : l.countP p ≤ 1) : ∀ e ∈ l.eraseP p, p e = false := by
  induction l with
  | nil => simp
  | cons x xs ih =>
    intro e he
    by_cases hx : p x = true
    · simp [List.eraseP_cons, hx] at he
      simp [List.countP_cons, hx] at h
      exact h e he
    · simp [List.eraseP_cons, hx] at he
      simp [List.countP_cons, hx] at h
      rcases he with rfl | he
      · simpa using hx
      · exact ih h e he

theorem pendingOf_accept_receiver {s : Store} {R S : DocId} {r : User} (l : List PendingRequest)
    (hr : findUser s R = some r) :
    pendingOf
        (updateUser
          (updateUser s R (fun u =>
            { u with contacts := some (arrayUnion u.contacts S), pending_requests := some l }))
          S (fun u => { u with contacts := some (arrayUnion u.contacts R) })) R = l := by
  unfold pendingOf
  rw [findUser_updateUser _ _ _ _ ?_, findUser_updateUser _ _ _ _ ?_]
  rotate_left
  · intro u; rfl
  · intro u; rfl
  have hu : r.id = R := findUser_id hr
  by_cases h : R = S
  · subst h; simp [hr, hu]
  · simp [hr, hu, h]

theorem pendingOf_accept_other {s : Store} {R S : DocId} (l : List PendingRequest)
    (x : DocId) (hx : x ≠ R) :
    pendingOf
        (updateUser
          (updateUser s R (fun u =>
            { u with contacts := some (arrayUnion u.contacts S), pending_requests := some l }))
          S (fun u => { u with contacts := some (arrayUnion u.contacts R) })) x
      = pendingOf s x := by
  unfold pendingOf
  rw [findUser_updateUser _ _ _ _ ?_, findUser_updateUser _ _ _ _ ?_]
  rotate_left
  · intro u; rfl
  · intro u; rfl
  cases hf : findUser s x with
  | none => simp
  | some u =>
    have hu : u.id = x := findUser_id hf
    by_cases h : x = S
    · subst h; simp [hu, hx]
    · simp [hu, hx, h]

/-- C2 (as amended): a successful accept-friend-request(R, S) removes from the queue of `R`
the first entry sent by `S` and nothing else, leaves the queue of `S` as it was when `S ≠ R`,
and leaves no entry sent by `S` in the queue of `R` when that queue held at most one. -/
theorem accept_removes_first_entry_of_sender (s : Store) (R S : DocId)
    (h : (acceptFriendRequest s R S).status = 200) :
    pendingOf (acceptFriendRequest s R S).store R
        = (pendingOf s R).eraseP (fun e => e.senderId == S) ∧
    (S ≠ R → pendingOf (acceptFriendRequest s R S).store S = pendingOf s S) ∧
    ((pendingOf s R).countP (fun e => e.senderId == S) ≤ 1 →
        ∀ e ∈ pendingOf (acceptFriendRequest s R S).store R, e.senderId ≠ S) := by
  obtain ⟨r, sd, i, hr, hi, hs⟩ := acceptFriendRequest_inv h
  rw [acceptFriendRequest_eq hr hi hs]
  have hR : pendingOf s R = r.pending_requests.getD [] := by simp [pendingOf, hr]
  have h1 := pendingOf_accept_receiver (S := S) ((r.pending_requests.getD []).eraseIdx i) hr
  refine ⟨?_, ?_, ?_⟩
  · show pendingOf _ R = _
    rw [h1, hR, eraseIdx_findIdx? _ _ _ hi]
  · intro hne
    exact pendingOf_accept_other _ S hne
  · intro hc e he
    change e ∈ pendingOf _ R at he
    rw [h1, eraseIdx_findIdx? _ _ _ hi] at he
    rw [hR] at hc
    have := not_mem_eraseP_of_countP_le_one _ _ hc e he
    simpa using this


/-- C2 (as amended) at a concrete store: user 2 accepts the only request of user 1. -/
theorem accept_removes_first_entry_of_sender_witness :
    (acceptFriendRequest requested 2 1).status = 200 ∧
    pendingOf (acceptFriendRequest requested 2 1).store 2
        = (pendingOf requested 2).eraseP (fun e => e.senderId == 1) ∧
    ((1 : DocId) ≠ 2 → pendingOf (acceptFriendRequest requested 2 1).store 1 = pendingOf requested 1) ∧
    ((pendingOf requested 2).countP (fun e => e.senderId == 1) ≤ 1 →
        ∀ e ∈ pendingOf (acceptFriendRequest requested 2 1).store 2, e.senderId ≠ 1) :=
  ⟨by decide, accept_removes_first_entry_of_sender requested 2 1 (by decide)⟩

/-- C2 (counterexample): users 1 and 2 have each sent the other a request; user 2 accepts the
request of user 1 with success, and the queue of user 1 still holds the entry sent by 2. -/
theorem accept_keeps_reverse_entry :
    (acceptFriendRequest crossed 2 1).status = 200 ∧
    ¬ ((∀ e ∈ pendingOf (acceptFriendRequest crossed 2 1).store 2, e.senderId ≠ 1) ∧
       (∀ e ∈ pendingOf (acceptFriendRequest crossed 2 1).store 1, e.senderId ≠ 2)) := by
  decide

/-- C3: when the sender `A` has a document in which `B` is not a contact (the `contacts` field
may be missing) and the content is not empty, send-message answers 403 NotContact and the
store is the one before the call: no message is persisted and no user document changes. -/
theorem send_to_non_contact_is_refused (s : Store) (t0 t1 t2 : Timestamp) (newId A B : DocId)
    (a : User) (content : String)
    (ha : findUser s A = some a) (hB : B ∉ a.contacts.getD []) (hc : content ≠ "") :
    sendMessage s t0 t1 t2 newId A (some B) content
      = ⟨403, .message "El destinatario no es un contacto del remitente", s, []⟩ := by
  unfold sendMessage
  simp only [hc, if_false, ha]
  cases hcs : a.contacts with
  | none => rfl
  | some cs =>
    have : B ∉ cs := by simpa [hcs] using hB
    simp [this]

/-- C3 at a concrete store: user 1 writes to user 2 before they are contacts. -/
theorem send_to_non_contact_is_refused_witness :
    sendMessage twoUsers ⟨5, 0⟩ ⟨5, 1⟩ ⟨5, 2⟩ 77 1 (some 2) "hi"
      = ⟨403, .message "El destinatario no es un contacto del remitente", twoUsers, []⟩ :=
  send_to_non_contact_is_refused twoUsers ⟨5, 0⟩ ⟨5, 1⟩ ⟨5, 2⟩ 77 1 2
    (registeredUser 1 "Ana" "AAA111") "hi" (by decide) (by decide) (by decide)

/-- C4 (as amended): from two freshly registered users `A` and `B` with distinct ids and friend
codes, the friend request of `A` to the code of `B`, the accept by `B` and the send of "hello"
from `A` to `B` succeed, and listConversation(B, A) returns exactly one message, with content
"hello"; the returned copy shows `read = false`, the stored message has `read = true` after the
call, no user record is changed, and `lastMessageWith[A].unread` of `B` is still `true`. -/
theorem hello_scenario (idA idB : DocId) (nameA nameB codeA codeB : String)
    (tokens : List SessionToken) (now clock : Int) (t0 t1 t2 : Timestamp) (newId : DocId)
    (hid : idA ≠ idB) (hcode : codeA ≠ codeB) :
    let o1 := friendRequest (freshPair idA idB nameA nameB codeA codeB tokens) now idA codeB
    let o2 := acceptFriendRequest o1.store idB idA
    let o3 := sendMessage o2.store t0 t1 t2 newId idA (some idB) "hello"
    let o4 := getMessages o3.store clock idB idA none none
    o1.status = 200 ∧ o2.status = 200 ∧ o3.status = 201 ∧ o4.status = 200 ∧
    o4.body = .messages [⟨newId, idA, idB, "hello", t0.toDate, false, [idA, idB]⟩] ∧
    o4.store.messages = [⟨newId, idA, idB, "hello", some t0, true, [idA, idB]⟩] ∧
    o4.store.users = o3.store.users ∧
    unreadFlag o4.store idB idA = some true := by
  have hid' : ¬ idB = idA := fun h => hid h.symm
  have hcode' : ¬ codeB = codeA := fun h => hcode h.symm
  have hb1 : (codeA == codeB) = false := by simpa using hcode
  have hb2 : (idB == idA) = false := by simpa using hid'
  have hb3 : (idA == idB) = false := by simpa using hid
  intro o1 o2 o3 o4
  have e1 : o1.store = ⟨[registeredUser idA nameA codeA,
      { registeredUser idB nameB codeB with
        pending_requests := some [⟨idA, nameA, "", now⟩] }], [], tokens⟩ := by
    simp [o1, friendRequest, newRequest, freshPair, findUser, registeredUser, updateUser,
      arrayUnion, hid, hid', hcode, hcode', List.find?, hb1, hb2]
  have s1 : o1.status = 200 := by
    simp [o1, friendRequest, newRequest, freshPair, findUser, registeredUser, updateUser,
      arrayUnion, hid, hid', hcode, hcode', List.find?, hb1, hb2]
  have e2 : o2 = ⟨200, .message "Solicitud aceptada",
      ⟨[{ registeredUser idA nameA codeA with contacts := some [idB] },
        { registeredUser idB nameB codeB with contacts := some [idA] }], [], tokens⟩, []⟩ := by
    simp [o2, e1, acceptFriendRequest, findUser, registeredUser, updateUser, arrayUnion,
      hid, hid', List.find?, hb2, hb3, List.findIdx?_cons]
  have e3 : o3 = ⟨201, .sent "Mensaje enviado exitosamente" newId,
      ⟨[{ registeredUser idA nameA codeA with
            contacts := some [idB]
            lastMessageWith := some [(idB, ⟨some t1, some "hello", none⟩)] },
        { registeredUser idB nameB codeB with
            contacts := some [idA]
            lastMessageWith := some [(idA, ⟨some t2, some "hello", some true⟩)] }],
       [⟨newId, idA, idB, "hello", some t0, false, [idA, idB]⟩], tokens⟩, []⟩ := by
    simp [o3, e2, sendMessage, findUser, registeredUser, updateUser,
      hid, hid', List.find?, hb2, hb3]
  have e4 : o4 = ⟨200, .messages [⟨newId, idA, idB, "hello", t0.toDate, false, [idA, idB]⟩],
      ⟨[{ registeredUser idA nameA codeA with
            contacts := some [idB]
            lastMessageWith := some [(idB, ⟨some t1, some "hello", none⟩)] },
        { registeredUser idB nameB codeB with
            contacts := some [idA]
            lastMessageWith := some [(idA, ⟨some t2, some "hello", some true⟩)] }],
       [⟨newId, idA, idB, "hello", some t0, true, [idA, idB]⟩], tokens⟩, []⟩ := by
    simp [o4, e3, getMessages, toView, sliceTo, hid, hid', hb2, hb3]
  refine ⟨s1, by rw [e2], by rw [e3], by rw [e4], by rw [e4], by rw [e4], by rw [e4, e3], ?_⟩
  rw [e4]
  simp [unreadFlag, findUser, registeredUser, lastMessageOf, List.find?, hb3, List.lookup]

/-- C4 (as amended) for the users 1 and 2 with friend codes `AAA111` and `BBB222`. -/
theorem hello_scenario_witness :
    (1 : DocId) ≠ 2 ∧ "AAA111" ≠ "BBB222" ∧
    (getMessages helloSent 9000 2 1 none none).body
      = .messages [⟨77, 1, 2, "hello", 5000, false, [1, 2]⟩] ∧
    helloListed.messages = [⟨77, 1, 2, "hello", some ⟨5, 0⟩, true, [1, 2]⟩] :=
  have h := hello_scenario 1 2 "Ana" "Beto" "AAA111" "BBB222" [] 1000 9000 ⟨5, 0⟩ ⟨5, 1⟩ ⟨5, 2⟩ 77
    (by decide) (by decide)
  ⟨by decide, by decide, h.2.2.2.2.1, h.2.2.2.2.2.1⟩

/-- C4 (counterexample): users 1 and 2 run the scenario; the three calls succeed, the message
returned by listConversation(2, 1) carries `read = false`, and afterwards
`lastMessageWith[1].unread` of user 2 is `true`, not `false`. -/
theorem hello_listing_keeps_unread_flag :
    (friendRequest twoUsers 1000 1 "BBB222").status = 200 ∧
    (acceptFriendRequest requested 2 1).status = 200 ∧
    (sendMessage accepted ⟨5, 0⟩ ⟨5, 1⟩ ⟨5, 2⟩ 77 1 (some 2) "hello").status = 201 ∧
    (getMessages helloSent 9000 2 1 none none).status = 200 ∧
    (getMessages helloSent 9000 2 1 none none).body
      = .messages [⟨77, 1, 2, "hello", 5000, false, [1, 2]⟩] ∧
    unreadFlag (getMessages helloSent 9000 2 1 none none).store 2 1 = some true ∧
    unreadFlag (getMessages helloSent 9000 2 1 none none).store 2 1 ≠ some false := by
  decide

theorem lookup_map_setUnread (m : List (DocId × LastMessage)) (C : DocId)
    (h : m.any (fun e => e.1 == C) = true) :
    ((m.map (fun e => if e.1 = C then (e.1, { e.2 with unread := some false }) else e)).lookup C).bind
      (fun e => e.unread) = some false := by
  induction m with
  | nil => simp at h
  | cons x xs ih =>
    obtain ⟨k, v⟩ := x
    by_cases hk : k = C
    · subst hk
      simp [List.lookup_cons]
    · have hk' : (C == k) = false := by simpa using fun h => hk h.symm
      have hxs : xs.any (fun e => e.1 == C) = true := by
        simpa [hk] using h
      have := ih hxs
      simp only [List.map_cons, hk, if_false, List.lookup_cons, hk']
      exact this

theorem lookup_append_new (m : List (DocId × LastMessage)) (C : DocId) (v : LastMessage)
    (h : m.any (fun e => e.1 == C) = false) :
    (m ++ [(C, v)]).lookup C = some v := by
  induction m with
  | nil => simp [List.lookup]
  | cons x xs ih =>
    obtain ⟨k, w⟩ := x
    simp only [List.any_cons, Bool.or_eq_false_iff] at h
    have hk' : (C == k) = false := by
      have := h.1
      simp at this
      simpa using fun h => this h.symm
    simp only [List.cons_append, List.lookup, hk']
    exact ih h.2

theorem lookup_setUnreadFalse (field : Option (List (DocId × LastMessage))) (C : DocId) :
    ((setUnreadFalse field C).lookup C).bind (fun e => e.unread) = some false := by
  unfold setUnreadFalse
  by_cases h : (field.getD []).any (fun e => e.1 == C) = true
  · simp only [h, if_true]
    exact lookup_map_setUnread _ _ h
  · have hf : (field.getD []).any (fun e => e.1 == C) = false := by
      cases hb : (field.getD []).any (fun e => e.1 == C) with
      | true => exact absurd hb h
      | false => rfl
    simp only [hf]
    rw [if_neg (by simp), lookup_append_new _ _ _ hf]
    rfl

theorem unreadQuery_after_mark (s : Store) (users : List User) (U C : DocId) :
    unreadQuery
      { s with
        users := users
        messages := s.messages.map (fun m =>
          if m.receiverId = U ∧ m.senderId = C ∧ m.read = false
          then { m with read := true } else m) } U C = [] := by
  unfold unreadQuery
  rw [List.filter_eq_nil_iff]
  intro m hm
  rw [List.mem_map] at hm
  obtain ⟨m0, _, rfl⟩ := hm
  by_cases h : m0.receiverId = U ∧ m0.senderId = C ∧ m0.read = false
  · simp [h]
  · simp only [h, if_false]
    simpa using h

theorem markRead_nothing_unread {s : Store} {U C : DocId} (h : unreadQuery s U C = []) :
    markRead s U C = ⟨200, .message "No hay mensajes sin leer", s, []⟩ := by
  simp only [markRead, h, List.isEmpty_nil, if_true]

theorem markRead_some_unread {s : Store} {U C : DocId} (h : unreadQuery s U C ≠ [])
    (hs : (markRead s U C).status = 200) :
    ∃ u, findUser s U = some u ∧
    markRead s U C = ⟨200, .message "Mensajes marcados como leídos",
      { s with
        users := (updateUser s U (fun u =>
          { u with lastMessageWith := some (setUnreadFalse u.lastMessageWith C) })).users
        messages := s.messages.map (fun m =>
          if m.receiverId = U ∧ m.senderId = C ∧ m.read = false
          then { m with read := true } else m) }, []⟩ := by
  have h' : (unreadQuery s U C).isEmpty = false := by
    cases hl : unreadQuery s U C with
    | nil => exact absurd hl h
    | cons _ _ => rfl
  unfold markRead at hs ⊢
  simp only [h'] at hs ⊢
  cases hu : findUser s U with
  | none => simp [hu] at hs
  | some u => exact ⟨u, rfl, by simp [updateUser]⟩

/-- C5 (as amended): when mark-read(U, C) returns success and at least one unread message
from `C` to `U` was stored, `lastMessageWith[C].unread` on the record of `U` is `false`
afterwards; when no such message was stored, the call is a no-op that leaves the store, and
with it the flag, as it was. -/
theorem markRead_clears_flag_when_unread_stored (s : Store) (U C : DocId) (h : (markRead s U C).status = 200) :
    (0 < unreadCount s U C → unreadFlag (markRead s U C).store U C = some false) ∧
    (unreadCount s U C = 0 → (markRead s U C).store = s) := by
  constructor
  · intro hpos
    have hne : unreadQuery s U C ≠ [] := by
      intro h0
      simp [unreadCount, h0] at hpos
    obtain ⟨u, hu, heq⟩ := markRead_some_unread hne h
    rw [heq]
    have hid : u.id = U := findUser_id hu
    have : ∀ ms, findUser
        { s with
          users := (updateUser s U (fun u =>
            { u with lastMessageWith := some (setUnreadFalse u.lastMessageWith C) })).users
          messages := ms } U
        = findUser (updateUser s U (fun u =>
            { u with lastMessageWith := some (setUnreadFalse u.lastMessageWith C) })) U :=
      fun _ => rfl
    simp only [unreadFlag, this]
    rw [findUser_updateUser _ _ _ _ ?_]
    · simp only [hu, Option.map_some', hid, if_true, lastMessageOf, Option.getD_some]
      exact lookup_setUnreadFalse _ _
    · intro u; rfl
  · intro h0
    have : unreadQuery s U C = [] := by
      simpa [unreadCount] using h0
    rw [markRead_nothing_unread this]

/-- C5 (as amended) at a concrete store: user 2 marks the unread "hello" of user 1 as read. -/
theorem markRead_clears_flag_when_unread_stored_witness :
    (markRead helloSent 2 1).status = 200 ∧ 0 < unreadCount helloSent 2 1 ∧
    unreadFlag (markRead helloSent 2 1).store 2 1 = some false :=
  ⟨by decide, by decide,
    (markRead_clears_flag_when_unread_stored helloSent 2 1 (by decide)).1 (by decide)⟩

/-- C5 (counterexample): user 2 has listed the conversation with user 1, so no message from 1
is unread while `lastMessageWith[1].unread` is `true`; mark-read(2, 1) returns 200 and the
flag is still `true`. -/
theorem markRead_keeps_flag_when_nothing_unread :
    unreadFlag helloListed 2 1 = some true ∧
    (markRead helloListed 2 1).status = 200 ∧
    unreadFlag (markRead helloListed 2 1).store 2 1 = some true := by
  decide

/-- C6: after a successful mark-read(D, C) no stored message from `C` to `D` has
`read = false`, and a second mark-read(D, C) returns 200 and leaves the whole store as the
first call left it. -/
theorem markRead_leaves_none_unread_and_repeats_as_noop (s : Store) (D C : DocId) (h : (markRead s D C).status = 200) :
    unreadCount (markRead s D C).store D C = 0 ∧
    markRead (markRead s D C).store D C
      = ⟨200, .message "No hay mensajes sin leer", (markRead s D C).store, []⟩ := by
  have key : unreadQuery (markRead s D C).store D C = [] := by
    by_cases h0 : unreadQuery s D C = []
    · rw [markRead_nothing_unread h0]; exact h0
    · obtain ⟨u, _, heq⟩ := markRead_some_unread h0 h
      rw [heq]
      exact unreadQuery_after_mark _ _ _ _
  exact ⟨by simp [unreadCount, key], markRead_nothing_unread key⟩


/-- C6 at a concrete store: user 2 marks the conversation with user 1 as read, twice. -/
theorem markRead_leaves_none_unread_and_repeats_as_noop_witness :
    (markRead helloSent 2 1).status = 200 ∧
    unreadCount (markRead helloSent 2 1).store 2 1 = 0 ∧
    markRead (markRead helloSent 2 1).store 2 1
      = ⟨200, .message "No hay mensajes sin leer", (markRead helloSent 2 1).store, []⟩ :=
  ⟨by decide, markRead_leaves_none_unread_and_repeats_as_noop helloSent 2 1 (by decide)⟩

/-- C7 (the code at the failing input): user 1, a contact of users 2 and 3, holds the summary of
the "hola" sent to user 3; a successful send-message(1, 2, "hello") replaces the whole
`lastMessageWith` map, so afterwards the record of user 1 has no summary for peer 3. -/
theorem send_drops_summaries_of_other_peers :
    summaryOf holaSent 1 3 = some ⟨some ⟨4, 1⟩, some "hola", none⟩ ∧
    (sendMessage holaSent ⟨5, 0⟩ ⟨5, 1⟩ ⟨5, 2⟩ 77 1 (some 2) "hello").status = 201 ∧
    summaryOf (sendMessage holaSent ⟨5, 0⟩ ⟨5, 1⟩ ⟨5, 2⟩ 77 1 (some 2) "hello").store 1 3 = none := by
  decide

theorem findUser_of_messages (s : Store) (ms : List Message) (x : DocId) :
    findUser { s with messages := ms } x = findUser s x := rfl

/-- C8 (as amended): when the documents of the sender `A` and of the receiver `B` exist,
`B ≠ A`, `B` is in `A.contacts` and the content is not empty, send-message answers 201 with the
id of the new message, appends exactly the message (A, B, content, read = false,
participants = [A, B]) to the stored messages, which are otherwise unchanged, sets
`A.lastMessageWith[B]` to the content without an unread flag and `B.lastMessageWith[A]` to the
content with `unread = true`. -/
theorem send_to_contact_succeeds (s : Store) (t0 t1 t2 : Timestamp) (newId A B : DocId) (a b : User)
    (content : String)
    (ha : findUser s A = some a) (hb : findUser s B = some b) (hAB : A ≠ B)
    (hB : B ∈ a.contacts.getD []) (hc : content ≠ "") :
    (sendMessage s t0 t1 t2 newId A (some B) content).status = 201 ∧
    (sendMessage s t0 t1 t2 newId A (some B) content).body
      = .sent "Mensaje enviado exitosamente" newId ∧
    (sendMessage s t0 t1 t2 newId A (some B) content).store.messages
      = s.messages ++ [⟨newId, A, B, content, some t0, false, [A, B]⟩] ∧
    summaryOf (sendMessage s t0 t1 t2 newId A (some B) content).store A B
      = some ⟨some t1, some content, none⟩ ∧
    summaryOf (sendMessage s t0 t1 t2 newId A (some B) content).store B A
      = some ⟨some t2, some content, some true⟩ := by
  unfold summaryOf
  have hBA : ¬ B = A := fun h => hAB h.symm
  have haid : a.id = A := findUser_id ha
  have hbid : b.id = B := findUser_id hb
  obtain ⟨cs, hcs, hmem⟩ : ∃ cs, a.contacts = some cs ∧ B ∈ cs := by
    cases hcs : a.contacts with
    | none => simp [hcs] at hB
    | some cs => exact ⟨cs, rfl, by simpa [hcs] using hB⟩
  have h2 : findUser
      (updateUser { s with messages := s.messages ++ [⟨newId, A, B, content, some t0, false, [A, B]⟩] }
        A (fun u => { u with lastMessageWith := some [(B, ⟨some t1, some content, none⟩)] }))
        B = some b := by
    rw [findUser_updateUser _ _ _ _ ?_, findUser_of_messages, hb]
    · simp [hbid, hBA]
    · intro u; rfl
  have heq : sendMessage s t0 t1 t2 newId A (some B) content
      = ⟨201, .sent "Mensaje enviado exitosamente" newId,
          updateUser
            (updateUser { s with messages := s.messages ++ [⟨newId, A, B, content, some t0, false, [A, B]⟩] }
              A (fun u => { u with lastMessageWith := some [(B, ⟨some t1, some content, none⟩)] }))
            B (fun u => { u with lastMessageWith := some [(A, ⟨some t2, some content, some true⟩)] }),
          []⟩ := by
    unfold sendMessage
    simp only [hc, if_false, ha, hcs, hmem, not_true_eq_false, h2]
  rw [heq]
  refine ⟨rfl, rfl, rfl, ?_, ?_⟩
  · show (findUser (updateUser _ B _) A).bind _ = _
    rw [findUser_updateUser _ _ _ _ ?_, findUser_updateUser _ _ _ _ ?_, findUser_of_messages, ha]
    · simp [haid, hAB, lastMessageOf, List.lookup_cons]
    · intro u; rfl
    · intro u; rfl
  · show (findUser (updateUser _ B _) B).bind _ = _
    rw [findUser_updateUser _ _ _ _ ?_, findUser_updateUser _ _ _ _ ?_, findUser_of_messages, hb]
    · simp [hbid, hBA, lastMessageOf, List.lookup_cons]
    · intro u; rfl
    · intro u; rfl

/-- C8 (as amended) at a concrete store: user 1 sends "hello" to its contact 2. -/
theorem send_to_contact_succeeds_witness :
    (sendMessage accepted ⟨5, 0⟩ ⟨5, 1⟩ ⟨5, 2⟩ 77 1 (some 2) "hello").status = 201 ∧
    (sendMessage accepted ⟨5, 0⟩ ⟨5, 1⟩ ⟨5, 2⟩ 77 1 (some 2) "hello").body
      = .sent "Mensaje enviado exitosamente" 77 ∧
    (sendMessage accepted ⟨5, 0⟩ ⟨5, 1⟩ ⟨5, 2⟩ 77 1 (some 2) "hello").store.messages
      = accepted.messages ++ [⟨77, 1, 2, "hello", some ⟨5, 0⟩, false, [1, 2]⟩] ∧
    summaryOf (sendMessage accepted ⟨5, 0⟩ ⟨5, 1⟩ ⟨5, 2⟩ 77 1 (some 2) "hello").store 1 2
      = some ⟨some ⟨5, 1⟩, some "hello", none⟩ ∧
    summaryOf (sendMessage accepted ⟨5, 0⟩ ⟨5, 1⟩ ⟨5, 2⟩ 77 1 (some 2) "hello").store 2 1
      = some ⟨some ⟨5, 2⟩, some "hello", some true⟩ :=
  send_to_contact_succeeds accepted ⟨5, 0⟩ ⟨5, 1⟩ ⟨5, 2⟩ 77 1 2
    { registeredUser 1 "Ana" "AAA111" with contacts := some [2] }
    { registeredUser 2 "Beto" "BBB222" with contacts := some [1] }
    "hello" (by decide) (by decide) (by decide) (by decide) (by decide)

/-- C8 (counterexample): with the contact 9 of user 1 lacking a document, send-message(1, 9,
"hello") answers 500 after it has persisted the message; and with user 1 listed in its own
contacts, send-message(1, 1, "hello") answers 201 and leaves `lastMessageWith[1]` of the sender
with `unread = true`. -/
theorem send_fails_without_receiver_document :
    (9 ∈ contactsOf danglingContact 1 ∧
      (sendMessage danglingContact ⟨5, 0⟩ ⟨5, 1⟩ ⟨5, 2⟩ 77 1 (some 9) "hello").status = 500 ∧
      (sendMessage danglingContact ⟨5, 0⟩ ⟨5, 1⟩ ⟨5, 2⟩ 77 1 (some 9) "hello").store.messages
        = [⟨77, 1, 9, "hello", some ⟨5, 0⟩, false, [1, 9]⟩]) ∧
    (1 ∈ contactsOf selfContact 1 ∧
      (sendMessage selfContact ⟨5, 0⟩ ⟨5, 1⟩ ⟨5, 2⟩ 77 1 (some 1) "hello").status = 201 ∧
      summaryOf (sendMessage selfContact ⟨5, 0⟩ ⟨5, 1⟩ ⟨5, 2⟩ 77 1 (some 1) "hello").store 1 1
        = some ⟨some ⟨5, 2⟩, some "hello", some true⟩) := by
  decide

/-- C9 (as amended): send-message emits no socket event, whatever its arguments and outcome;
its effects are the store writes and the HTTP response. -/
theorem send_emits_nothing (s : Store) (t0 t1 t2 : Timestamp) (newId A : DocId) (B : Option DocId)
    (content : String) :
    (sendMessage s t0 t1 t2 newId A B content).emitted = [] := by
  unfold sendMessage
  repeat' split
  all_goals first | rfl | (dsimp only; split <;> rfl)


/-- C9 (counterexample): the send of "hello" from user 1 to its contact 2 succeeds with 201 and
no event goes to the room of user 2 (nor to any room). -/
theorem successful_send_emits_nothing :
    (sendMessage accepted ⟨5, 0⟩ ⟨5, 1⟩ ⟨5, 2⟩ 77 1 (some 2) "hello").status = 201 ∧
    ¬ ∃ e ∈ (sendMessage accepted ⟨5, 0⟩ ⟨5, 1⟩ ⟨5, 2⟩ 77 1 (some 2) "hello").emitted,
        e.room = 2 := by
  decide


theorem friendRequest_inv {s : Store} {now : Int} {A : DocId} {code : String}
    (h : (friendRequest s now A code).status = 200) :
    ∃ a r, findUser s A = some a ∧ s.users.find? (fun u => u.friend_code == code) = some r ∧
      a.id ≠ r.id ∧ r.id ∉ a.contacts.getD [] ∧
      (r.pending_requests.getD []).any (fun e => e.senderId == a.id) = false := by
  unfold friendRequest at h
  cases ha : findUser s A with
  | none => simp [ha] at h
  | some a =>
    cases hr : s.users.find? (fun u => u.friend_code == code) with
    | none => simp [ha, hr] at h
    | some r =>
      simp only [ha, hr] at h
      by_cases h1 : a.id = r.id
      · simp [h1] at h
      · by_cases h2 : r.id ∈ a.contacts.getD []
        · simp [h1, h2] at h
        · cases h3 : (r.pending_requests.getD []).any (fun e => e.senderId == a.id) with
          | true => simp [h1, h2, h3] at h
          | false => exact ⟨a, r, rfl, rfl, h1, h2, h3⟩

theorem friendRequest_eq {s : Store} {now : Int} {A : DocId} {code : String} {a r : User}
    (ha : findUser s A = some a) (hr : s.users.find? (fun u => u.friend_code == code) = some r)
    (h1 : a.id ≠ r.id) (h2 : r.id ∉ a.contacts.getD [])
    (h3 : (r.pending_requests.getD []).any (fun e => e.senderId == a.id) = false) :
    friendRequest s now A code = ⟨200, .message "Solicitud de amistad enviada",
      updateUser s r.id (fun u =>
        { u with pending_requests := some (arrayUnion u.pending_requests (newRequest a now)) }),
      []⟩ := by
  unfold friendRequest
  simp only [ha, hr, h1, h2, h3, if_false, Bool.false_eq_true]

theorem find?_code_updateUser (s : Store) (id : DocId) (f : User → User) (code : String)
    (hf : ∀ u, (f u).friend_code = u.friend_code) :
    (updateUser s id f).users.find? (fun u => u.friend_code == code)
      = (s.users.find? (fun u => u.friend_code == code)).map
          (fun u => if u.id = id then f u else u) := by
  unfold updateUser
  simp only [List.find?_map]
  congr 1
  congr 1
  funext u
  by_cases h : u.id = id <;> simp [h, hf]

theorem arrayUnion_newRequest (a r : User) (now : Int)
    (h3 : (r.pending_requests.getD []).any (fun e => e.senderId == a.id) = false) :
    arrayUnion r.pending_requests (newRequest a now)
      = r.pending_requests.getD [] ++ [newRequest a now] := by
  unfold arrayUnion
  have : newRequest a now ∉ r.pending_requests.getD [] := by
    intro hmem
    have : (r.pending_requests.getD []).any (fun e => e.senderId == a.id) = true := by
      rw [List.any_eq_true]
      exact ⟨_, hmem, by simp [newRequest]⟩
    rw [h3] at this
    exact Bool.noConfusion this
  simp only [this, if_false]

theorem countP_eq_zero_of_any_false {α : Type} (p : α → Bool) (l : List α)
    (h : l.any p = false) : l.countP p = 0 := by
  rw [List.countP_eq_zero]
  intro x hx hp
  have : l.any p = true := List.any_eq_true.mpr ⟨x, hx, hp⟩
  rw [h] at this
  exact Bool.noConfusion this

/-- C10: when friend-request(A, code) succeeds, the same request repeated on the resulting
store answers 400 (a request was already sent) and leaves the store unchanged, and the pending
queue of the user the code resolves to holds exactly one entry with `senderId = A`. -/
theorem repeated_request_is_conflict (s : Store) (now later : Int) (A : DocId) (code : String)
    (h : (friendRequest s now A code).status = 200) :
    friendRequest (friendRequest s now A code).store later A code
      = ⟨400, .message "Ya has enviado una solicitud a este usuario",
          (friendRequest s now A code).store, []⟩ ∧
    ∃ b, (friendRequest s now A code).store.users.find? (fun u => u.friend_code == code) = some b ∧
      (b.pending_requests.getD []).countP (fun e => e.senderId == A) = 1 := by
  obtain ⟨a, r, ha, hr, h1, h2, h3⟩ := friendRequest_inv h
  have haid : a.id = A := findUser_id ha
  rw [friendRequest_eq ha hr h1 h2 h3]
  have hA : findUser (updateUser s r.id (fun u =>
      { u with pending_requests := some (arrayUnion u.pending_requests (newRequest a now)) })) A
      = some a := by
    rw [findUser_updateUser _ _ _ _ ?_, ha]
    · simp [h1]
    · intro u; rfl
  have hR : (updateUser s r.id (fun u =>
      { u with pending_requests := some (arrayUnion u.pending_requests (newRequest a now)) })).users.find?
        (fun u => u.friend_code == code)
      = some { r with pending_requests := some (r.pending_requests.getD [] ++ [newRequest a now]) } := by
    rw [find?_code_updateUser _ _ _ _ ?_, hr]
    · simp [arrayUnion_newRequest a r now h3]
    · intro u; rfl
  constructor
  · unfold friendRequest
    simp only [hA, hR, h1, h2, if_false]
    simp [newRequest]
  · refine ⟨_, hR, ?_⟩
    have h0 := countP_eq_zero_of_any_false _ _ h3
    rw [haid] at h0
    simp [List.countP_append, h0, newRequest, haid]


/-- C10 at a concrete store: user 1 requests the friend code of user 2 twice in a row. -/
theorem repeated_request_is_conflict_witness :
    (friendRequest twoUsers 1000 1 "BBB222").status = 200 ∧
    friendRequest (friendRequest twoUsers 1000 1 "BBB222").store 1001 1 "BBB222"
      = ⟨400, .message "Ya has enviado una solicitud a este usuario",
          (friendRequest twoUsers 1000 1 "BBB222").store, []⟩ ∧
    ∃ b, (friendRequest twoUsers 1000 1 "BBB222").store.users.find?
          (fun u => u.friend_code == "BBB222") = some b ∧
      (b.pending_requests.getD []).countP (fun e => e.senderId == 1) = 1 :=
  ⟨by decide, repeated_request_is_conflict twoUsers 1000 1001 1 "BBB222" (by decide)⟩

theorem eq_of_id_eq {s : Store} (hu : UniqueIds s) {u v : User} (hu1 : u ∈ s.users)
    (hv : v ∈ s.users) (h : u.id = v.id) : u = v :=
  List.inj_on_of_nodup_map hu hu1 hv h

theorem newRequest_eq (f : User) (now : Int) :
    newRequest f now = ⟨f.id, f.name, f.profile_picture_url.getD "", now⟩ := by
  unfold newRequest
  cases h : f.profile_picture_url with
  | none => rfl
  | some url =>
    by_cases hurl : url = ""
    · simp [hurl]
    · simp [hurl]

/-- C11: for an existing sender `F` and a friend code `c`, friend-request answers 404 when no
user has the code; with `T` the user the code resolves to, it answers 400 when `T` is `F`,
else 400 when `T` is in `F.contacts`, else 400 when the queue of `T` holds an entry sent by
`F`, the store being unchanged in each of these cases; otherwise it answers 200 and the store
differs only in the document of `T`, whose `pending_requests` is the old queue followed by the
entry (F, F.name, avatar of F, now). -/
theorem friendRequest_by_cases (s : Store) (now : Int) (F : DocId) (c : String) (f : User)
    (hu : UniqueIds s) (hf : findUser s F = some f) :
    (s.users.find? (fun u => u.friend_code == c) = none →
      friendRequest s now F c = ⟨404, .message "Código de amigo no encontrado", s, []⟩) ∧
    (∀ T, s.users.find? (fun u => u.friend_code == c) = some T →
      (T.id = F → friendRequest s now F c
        = ⟨400, .message "No puedes enviarte una solicitud a ti mismo", s, []⟩) ∧
      (T.id ≠ F → T.id ∈ f.contacts.getD [] → friendRequest s now F c
        = ⟨400, .message "Este usuario ya es tu contacto", s, []⟩) ∧
      (T.id ≠ F → T.id ∉ f.contacts.getD [] →
        (∃ e ∈ T.pending_requests.getD [], e.senderId = F) → friendRequest s now F c
        = ⟨400, .message "Ya has enviado una solicitud a este usuario", s, []⟩) ∧
      (T.id ≠ F → T.id ∉ f.contacts.getD [] →
        (∀ e ∈ T.pending_requests.getD [], e.senderId ≠ F) → friendRequest s now F c
        = ⟨200, .message "Solicitud de amistad enviada",
            { s with users := s.users.map (fun u =>
                if u.id = T.id then
                  { T with pending_requests := some (T.pending_requests.getD [] ++
                      [⟨F, f.name, f.profile_picture_url.getD "", now⟩]) }
                else u) }, []⟩)) := by
  have hfid : f.id = F := findUser_id hf
  refine ⟨?_, ?_⟩
  · intro hnone
    simp only [friendRequest, hf, hnone]
  · intro T hT
    refine ⟨?_, ?_, ?_, ?_⟩
    · intro h1
      simp only [friendRequest, hf, hT, hfid, h1, if_true]
    · intro h1 h2
      have h1' : ¬ F = T.id := fun h => h1 h.symm
      simp only [friendRequest, hf, hT, hfid, h1', h2, if_true, if_false]
    · intro h1 h2 h3
      have h1' : ¬ F = T.id := fun h => h1 h.symm
      have h3' : (T.pending_requests.getD []).any (fun r => r.senderId == F) = true := by
        rw [List.any_eq_true]
        obtain ⟨e, he, heq⟩ := h3
        exact ⟨e, he, by simp [heq]⟩
      simp only [friendRequest, hf, hT, hfid, h1', h2, h3', if_true, if_false]
    · intro h1 h2 h3
      have h1' : f.id ≠ T.id := fun h => h1 (hfid ▸ h.symm)
      have h3' : (T.pending_requests.getD []).any (fun e => e.senderId == f.id) = false := by
        cases hb : (T.pending_requests.getD []).any (fun e => e.senderId == f.id) with
        | false => rfl
        | true =>
          rw [List.any_eq_true] at hb
          obtain ⟨e, he, heq⟩ := hb
          exact absurd (by simpa [hfid] using heq) (h3 e he)
      rw [friendRequest_eq hf hT h1' (by simpa using h2) h3']
      have hTmem : T ∈ s.users := List.mem_of_find?_eq_some hT
      congr 1
      unfold updateUser
      congr 1
      apply List.map_congr_left
      intro u hmem
      by_cases hid : u.id = T.id
      · have : u = T := eq_of_id_eq hu hmem hTmem hid
        subst this
        simp only [if_true]
        rw [arrayUnion_newRequest f u now h3', newRequest_eq, hfid]
      · simp only [hid, if_false]


/-- C11 at a concrete store: the request of user 1 to the friend code of user 2 is appended to
the empty queue of user 2. -/
theorem friendRequest_by_cases_witness :
    friendRequest twoUsers 1000 1 "BBB222"
      = ⟨200, .message "Solicitud de amistad enviada",
          { twoUsers with users := twoUsers.users.map (fun u =>
              if u.id = (registeredUser 2 "Beto" "BBB222").id then
                { registeredUser 2 "Beto" "BBB222" with
                  pending_requests := some ((registeredUser 2 "Beto" "BBB222").pending_requests.getD [] ++
                    [⟨1, (registeredUser 1 "Ana" "AAA111").name,
                      (registeredUser 1 "Ana" "AAA111").profile_picture_url.getD "", 1000⟩]) }
              else u) }, []⟩ :=
  ((friendRequest_by_cases twoUsers 1000 1 "BBB222" (registeredUser 1 "Ana" "AAA111")
      (by unfold UniqueIds; decide) (by decide)).2 (registeredUser 2 "Beto" "BBB222") (by decide)).2.2.2
    (by decide) (by decide) (by decide)


theorem any_false_of_forall_ne (l : List PendingRequest) (S : DocId)
    (h : ∀ e ∈ l, e.senderId ≠ S) : l.findIdx? (fun r => r.senderId == S) = none := by
  rw [List.findIdx?_eq_none_iff]
  intro e he
  simpa using h e he

theorem contactsOf_updateUser_pending (s : Store) (R : DocId) (l : List PendingRequest)
    (x : DocId) :
    contactsOf (updateUser s R (fun u => { u with pending_requests := some l })) x
      = contactsOf s x := by
  unfold contactsOf
  rw [findUser_updateUser _ _ _ _ ?_]
  · cases hx : findUser s x with
    | none => rfl
    | some u =>
      by_cases h : u.id = R <;> simp [h]
  · intro u; rfl

theorem pendingOf_updateUser_pending (s : Store) (R : DocId) (l : List PendingRequest)
    (r : User) (hr : findUser s R = some r) :
    pendingOf (updateUser s R (fun u => { u with pending_requests := some l })) R = l := by
  unfold pendingOf
  rw [findUser_updateUser _ _ _ _ ?_]
  · simp [hr, findUser_id hr]
  · intro u; rfl

/-- C12: reject-friend-request(R, S) leaves the contacts of every user unchanged; when the
queue of `R` holds an entry sent by `S` it answers 200 and the store differs only in the
`pending_requests` of `R`, which is the old queue without its first entry sent by `S`, the other
entries in their order; when no entry matches it answers 404 and the store is unchanged. -/
theorem reject_touches_only_the_queue (s : Store) (R S : DocId) :
    (∀ x, contactsOf (rejectFriendRequest s R S).store x = contactsOf s x) ∧
    ((∃ e ∈ pendingOf s R, e.senderId = S) →
      rejectFriendRequest s R S
        = ⟨200, .message "Solicitud rechazada",
            { s with users := s.users.map (fun u =>
                if u.id = R then
                  { u with pending_requests := some ((pendingOf s R).eraseP (fun e => e.senderId == S)) }
                else u) }, []⟩ ∧
      pendingOf (rejectFriendRequest s R S).store R
        = (pendingOf s R).eraseP (fun e => e.senderId == S)) ∧
    ((∀ e ∈ pendingOf s R, e.senderId ≠ S) →
      (rejectFriendRequest s R S).status = 404 ∧ (rejectFriendRequest s R S).store = s) := by
  cases hr : findUser s R with
  | none =>
    have hp : pendingOf s R = [] := by simp [pendingOf, hr]
    have heq : rejectFriendRequest s R S = ⟨404, .message "Usuario no encontrado", s, []⟩ := by
      simp only [rejectFriendRequest, hr]
    rw [heq, hp]
    refine ⟨fun _ => rfl, ?_, fun _ => ⟨rfl, rfl⟩⟩
    rintro ⟨e, he, _⟩
    simp at he
  | some r =>
    have hp : pendingOf s R = r.pending_requests.getD [] := by simp [pendingOf, hr]
    cases hi : (r.pending_requests.getD []).findIdx? (fun e => e.senderId == S) with
    | none =>
      have heq : rejectFriendRequest s R S
          = ⟨404, .message "Solicitud no encontrada", s, []⟩ := by
        simp only [rejectFriendRequest, hr, hi]
      rw [heq, hp]
      refine ⟨fun _ => rfl, ?_, fun _ => ⟨rfl, rfl⟩⟩
      rintro ⟨e, he, hS⟩
      obtain ⟨i, hi'⟩ := findIdx?_isSome_of_mem (fun e => e.senderId == S) _ e he (by simp [hS])
      rw [hi] at hi'
      exact Option.noConfusion hi'
    | some i =>
      have heq : rejectFriendRequest s R S
          = ⟨200, .message "Solicitud rechazada",
              updateUser s R (fun u =>
                { u with pending_requests := some ((r.pending_requests.getD []).eraseP (fun e => e.senderId == S)) }),
              []⟩ := by
        simp only [rejectFriendRequest, hr, hi, eraseIdx_findIdx? _ _ _ hi]
      rw [heq, hp]
      refine ⟨fun x => contactsOf_updateUser_pending _ _ _ _, fun _ => ⟨rfl, ?_⟩, ?_⟩
      · exact pendingOf_updateUser_pending _ _ _ r hr
      · intro hall
        rw [any_false_of_forall_ne _ _ hall] at hi
        exact Option.noConfusion hi

/-- C12 at a concrete store: user 2 rejects the pending request of user 1. -/
theorem reject_touches_only_the_queue_witness :
    (∃ e ∈ pendingOf requested 2, e.senderId = 1) ∧
    (rejectFriendRequest requested 2 1).status = 200 ∧
    pendingOf (rejectFriendRequest requested 2 1).store 2
      = (pendingOf requested 2).eraseP (fun e => e.senderId == 1) ∧
    (∀ x, contactsOf (rejectFriendRequest requested 2 1).store x = contactsOf requested x) :=
  have h := reject_touches_only_the_queue requested 2 1
  ⟨⟨⟨1, "Ana", "", 1000⟩, by decide, rfl⟩, by decide,
    (h.2.1 ⟨⟨1, "Ana", "", 1000⟩, by decide, rfl⟩).2, h.1⟩

/-- C13: accept-friend-request(R, S) answers 404 and leaves the store unchanged when the queue
of `R` holds no entry sent by `S` or `S` has no document; whenever it does not succeed the store
is unchanged; whenever it succeeds the first entry sent by `S` is gone from the queue of `R`,
`S` is in `R.contacts` and `R` is in `S.contacts`. -/
theorem accept_is_all_or_nothing (s : Store) (R S : DocId) :
    (((∀ e ∈ pendingOf s R, e.senderId ≠ S) ∨ findUser s S = none) →
      (acceptFriendRequest s R S).status = 404 ∧ (acceptFriendRequest s R S).store = s) ∧
    ((acceptFriendRequest s R S).status ≠ 200 → (acceptFriendRequest s R S).store = s) ∧
    ((acceptFriendRequest s R S).status = 200 →
      pendingOf (acceptFriendRequest s R S).store R
        = (pendingOf s R).eraseP (fun e => e.senderId == S) ∧
      S ∈ contactsOf (acceptFriendRequest s R S).store R ∧
      R ∈ contactsOf (acceptFriendRequest s R S).store S) := by
  have hfail : (acceptFriendRequest s R S).status ≠ 200 →
      (acceptFriendRequest s R S).status = 404 ∧ (acceptFriendRequest s R S).store = s := by
    cases hr : findUser s R with
    | none =>
      intro _
      simp only [acceptFriendRequest, hr, and_self]
    | some r =>
      cases hi : (r.pending_requests.getD []).findIdx? (fun e => e.senderId == S) with
      | none =>
        intro _
        simp only [acceptFriendRequest, hr, hi, and_self]
      | some i =>
        cases hs : findUser s S with
        | none =>
          intro _
          simp only [acceptFriendRequest, hr, hi, hs, and_self]
        | some sd =>
          intro h
          exact absurd (by rw [acceptFriendRequest_eq hr hi hs]) h
  refine ⟨?_, fun h => (hfail h).2, ?_⟩
  · intro h
    apply hfail
    intro h200
    obtain ⟨r, sd, i, hr, hi, hs⟩ := acceptFriendRequest_inv h200
    rcases h with h | h
    · have hp : pendingOf s R = r.pending_requests.getD [] := by simp [pendingOf, hr]
      rw [hp] at h
      rw [any_false_of_forall_ne _ _ h] at hi
      exact Option.noConfusion hi
    · rw [hs] at h
      exact Option.noConfusion h
  · intro h200
    obtain ⟨r, sd, i, hr, hi, hs⟩ := acceptFriendRequest_inv h200
    have hp : pendingOf s R = r.pending_requests.getD [] := by simp [pendingOf, hr]
    rw [acceptFriendRequest_eq hr hi hs]
    refine ⟨?_, ?_, ?_⟩
    · show pendingOf _ R = _
      rw [pendingOf_accept_receiver _ hr, hp, eraseIdx_findIdx? _ _ _ hi]
    · exact (mem_contactsOf_accept _ hr hs S R).mpr (Or.inr (Or.inl ⟨rfl, rfl⟩))
    · exact (mem_contactsOf_accept _ hr hs R S).mpr (Or.inr (Or.inr ⟨rfl, rfl⟩))


/-- C13 at concrete stores: user 2 accepts the request of user 1 (all three changes), and user 1
accepts a request that user 2 never sent (404, nothing changes). -/
theorem accept_is_all_or_nothing_witness :
    ((acceptFriendRequest requested 2 1).status = 200 ∧
      pendingOf (acceptFriendRequest requested 2 1).store 2
        = (pendingOf requested 2).eraseP (fun e => e.senderId == 1) ∧
      1 ∈ contactsOf (acceptFriendRequest requested 2 1).store 2 ∧
      2 ∈ contactsOf (acceptFriendRequest requested 2 1).store 1) ∧
    ((acceptFriendRequest requested 1 2).status = 404 ∧
      (acceptFriendRequest requested 1 2).store = requested) :=
  ⟨⟨by decide, (accept_is_all_or_nothing requested 2 1).2.2 (by decide)⟩,
    (accept_is_all_or_nothing requested 1 2).1 (Or.inl (by decide))⟩

theorem sliceTo_nil {α : Type} (stop : Option Int) : sliceTo ([] : List α) stop = [] := by
  unfold sliceTo
  cases stop with
  | none => rfl
  | some e => by_cases h : e < 0 <;> simp [h]

theorem sliceTo_initial_segment {α : Type} (l : List α) (stop : Option Int) : sliceTo l stop <+: l := by
  unfold sliceTo
  cases stop with
  | none => exact List.nil_prefix
  | some e =>
    by_cases h : e < 0
    · simp only [h, if_true]; exact List.take_prefix _ _
    · simp only [h, if_false]; exact List.take_prefix _ _

theorem conversation_nil_of_query_empty (s : Store) (U C : DocId)
    (h : (s.messages.filter (fun m => decide (U ∈ m.participants))).isEmpty = true) :
    conversation s U C = [] := by
  rw [List.isEmpty_iff] at h
  unfold conversation
  rw [List.filter_eq_nil_iff] at h ⊢
  intro m hm
  have := h m hm
  simp only [Bool.and_eq_true, not_and]
  intro h1
  exact absurd h1 this

theorem getMessages_listed (s : Store) (now : Int) (U C : DocId) (limit : Option String)
    (before : Option (Option Int)) :
    listed (getMessages s now U C limit before)
      = sliceTo ((((conversation s U C).map (toView now)).insertionSort
          (fun a b => a.timestamp ≤ b.timestamp)).filter (isBefore before)) (limitValue limit) := by
  unfold getMessages
  by_cases h : (s.messages.filter (fun m => decide (U ∈ m.participants))).isEmpty = true
  · simp only [h, if_true, listed]
    rw [conversation_nil_of_query_empty s U C h]
    simp [sliceTo_nil]
  · simp only [h, listed]
    have hconv : (s.messages.filter (fun m => decide (U ∈ m.participants))).filter (fun m =>
        (m.senderId == U && m.receiverId == C) || (m.senderId == C && m.receiverId == U))
        = conversation s U C := by
      unfold conversation
      rw [List.filter_filter]
      congr 1
      funext m
      exact Bool.and_comm _ _
    rw [hconv]
    cases before with
    | none =>
      have hb : isBefore none = fun _ => true := funext fun _ => rfl
      simp [hb, limitValue]
    | some b =>
      cases b with
      | none =>
        have hb : isBefore (some none) = fun _ => false := funext fun _ => rfl
        simp [hb, limitValue]
      | some t =>
        have hb : isBefore (some (some t)) = fun msg => decide (msg.timestamp < t) :=
          funext fun _ => rfl
        simp [hb, limitValue]

theorem getMessages_store (s : Store) (now : Int) (U C : DocId) (limit : Option String)
    (before : Option (Option Int)) :
    (getMessages s now U C limit before).store
      = { s with messages := s.messages.map (markedRead U C) } := by
  unfold getMessages
  by_cases h : (s.messages.filter (fun m => decide (U ∈ m.participants))).isEmpty = true
  · simp only [h, if_true]
    rw [List.isEmpty_iff, List.filter_eq_nil_iff] at h
    have : s.messages.map (markedRead U C) = s.messages := by
      conv_rhs => rw [← List.map_id s.messages]
      apply List.map_congr_left
      intro m hm
      have hU : U ∉ m.participants := by simpa using h m hm
      simp [markedRead, hU]
    rw [this]
  · simp only [h]
    rfl

theorem getMessages_status (s : Store) (now : Int) (U C : DocId) (limit : Option String)
    (before : Option (Option Int)) : (getMessages s now U C limit before).status = 200 := by
  unfold getMessages
  by_cases h : (s.messages.filter (fun m => decide (U ∈ m.participants))).isEmpty = true
  · simp only [h, if_true]
  · simp only [h]
    rfl


theorem filter_key_insertionSort (l : List MessageView) (t : Int) :
    (l.insertionSort (fun a b => a.timestamp ≤ b.timestamp)).filter
        (fun v => decide (v.timestamp = t))
      = l.filter (fun v => decide (v.timestamp = t)) := by
  have hpw : (l.filter (fun v => decide (v.timestamp = t))).Pairwise
      (fun a b => a.timestamp ≤ b.timestamp) := by
    rw [List.pairwise_iff_forall_sublist]
    intro a b hab
    have ha : a ∈ l.filter (fun v => decide (v.timestamp = t)) := hab.subset (by simp)
    have hb : b ∈ l.filter (fun v => decide (v.timestamp = t)) := hab.subset (by simp)
    simp only [List.mem_filter, decide_eq_true_eq] at ha hb
    rw [ha.2, hb.2]
  have hsub := List.sublist_insertionSort hpw (List.filter_sublist l)
  have hsub' := hsub.filter (fun v => decide (v.timestamp = t))
  rw [List.filter_filter] at hsub'
  simp only [Bool.and_self] at hsub'
  have hlen := ((List.perm_insertionSort (fun a b : MessageView => a.timestamp ≤ b.timestamp) l).filter
    (fun v => decide (v.timestamp = t))).length_eq
  exact (hsub'.eq_of_length hlen.symm).symm

theorem conversation_views_sublist (s : Store) (now : Int) (U C : DocId) :
    List.Sublist ((conversation s U C).map (toView now)) (queried s now U) := by
  unfold conversation queried
  apply List.Sublist.map
  rw [← List.filter_filter]
  exact (List.filter_sublist _).filter _

/-- C14: the messages returned by `GET /messages/:contactId` are in non-decreasing order of
their timestamps, and for every instant the returned messages carrying that timestamp appear in
the order in which the store query returned them (the sort is stable). -/
theorem listing_is_sorted_and_stable (s : Store) (now : Int) (U C : DocId) (limit : Option String)
    (before : Option (Option Int)) :
    (listed (getMessages s now U C limit before)).Sorted (fun a b => a.timestamp ≤ b.timestamp) ∧
    ∀ t : Int, List.Sublist
      ((listed (getMessages s now U C limit before)).filter (fun v => decide (v.timestamp = t)))
      (queried s now U) := by
  haveI : IsTotal MessageView (fun a b => a.timestamp ≤ b.timestamp) :=
    ⟨fun a b => le_total a.timestamp b.timestamp⟩
  haveI : IsTrans MessageView (fun a b => a.timestamp ≤ b.timestamp) :=
    ⟨fun _ _ _ h1 h2 => le_trans h1 h2⟩
  rw [getMessages_listed]
  have hpre := sliceTo_initial_segment ((((conversation s U C).map (toView now)).insertionSort
    (fun a b => a.timestamp ≤ b.timestamp)).filter (isBefore before)) (limitValue limit)
  constructor
  · have hs : ((((conversation s U C).map (toView now)).insertionSort
        (fun a b => a.timestamp ≤ b.timestamp)).filter (isBefore before)).Sorted
        (fun a b => a.timestamp ≤ b.timestamp) :=
      (List.sorted_insertionSort _ _).filter _
    exact List.Pairwise.sublist hpre.sublist hs
  · intro t
    have h1 := (hpre.sublist.trans (List.filter_sublist _)).filter
      (fun v => decide (v.timestamp = t))
    rw [filter_key_insertionSort] at h1
    exact (h1.trans (List.filter_sublist _)).trans (conversation_views_sublist s now U C)

theorem sliceTo_map {α β : Type} (f : α → β) (l : List α) (stop : Option Int) :
    (sliceTo l stop).map f = sliceTo (l.map f) stop := by
  unfold sliceTo
  cases stop with
  | none => rfl
  | some e =>
    by_cases h : e < 0
    · simp only [h, if_true, List.map_take, List.length_map]
    · simp only [h, if_false, List.map_take]

theorem listed_withoutRead (s : Store) (now : Int) (U C : DocId) (limit : Option String)
    (before : Option (Option Int)) :
    (listed (getMessages s now U C limit before)).map MessageView.withoutRead
      = sliceTo ((((conversation s U C).map (fun m => (toView now m).withoutRead)).insertionSort
          (fun a b => a.timestamp ≤ b.timestamp)).filter (isBefore before)) (limitValue limit) := by
  rw [getMessages_listed, sliceTo_map]
  congr 1
  have hsort : (((conversation s U C).map (toView now)).insertionSort
      (fun a b => a.timestamp ≤ b.timestamp)).map MessageView.withoutRead
      = ((conversation s U C).map (fun m => (toView now m).withoutRead)).insertionSort
          (fun a b => a.timestamp ≤ b.timestamp) := by
    rw [List.map_insertionSort (fun a b : MessageView => a.timestamp ≤ b.timestamp)
      (fun a b : MessageView => a.timestamp ≤ b.timestamp) MessageView.withoutRead _
      (fun _ _ _ _ => Iff.rfl), List.map_map]
    rfl
  rw [← hsort, List.filter_map]
  rfl

theorem conversation_markedRead (s : Store) (U C : DocId) :
    conversation { s with messages := s.messages.map (markedRead U C) } U C
      = (conversation s U C).map (markedRead U C) := by
  unfold conversation
  rw [List.filter_map]
  congr 1
  congr 1
  funext m
  unfold markedRead
  by_cases h : U ∈ m.participants ∧ m.receiverId = U ∧ m.senderId = C ∧ m.read = false
  · simp only [Function.comp, h, and_self, if_true]
  · simp only [Function.comp, h, if_false]

theorem toView_markedRead (now later : Int) (U C : DocId) (m : Message)
    (h : m.timestamp.isSome = true) :
    (toView later (markedRead U C m)).withoutRead = (toView now m).withoutRead := by
  obtain ⟨t, ht⟩ := Option.isSome_iff_exists.mp h
  unfold markedRead
  by_cases hc : U ∈ m.participants ∧ m.receiverId = U ∧ m.senderId = C ∧ m.read = false
  · simp only [hc, and_self, if_true, toView, ht, MessageView.withoutRead]
  · simp only [hc, if_false, toView, ht, MessageView.withoutRead]

theorem markedRead_idem (U C : DocId) (m : Message) :
    markedRead U C (markedRead U C m) = markedRead U C m := by
  unfold markedRead
  by_cases hc : U ∈ m.participants ∧ m.receiverId = U ∧ m.senderId = C ∧ m.read = false
  · simp [hc]
  · simp only [hc, if_false]

/-- C15 (as amended): when every stored message of the conversation carries a timestamp, a
second listConversation with the same arguments returns the same sequence of messages as the
first, the read flags left out of account; whatever the store, the second call answers 200 and
leaves the store as the first call left it (no further read flag is flipped). -/
theorem listing_twice_is_idempotent (s : Store) (now later : Int) (U C : DocId) (limit : Option String)
    (before : Option (Option Int)) :
    ((∀ m ∈ conversation s U C, m.timestamp.isSome = true) →
      (listed (getMessages (getMessages s now U C limit before).store later U C limit before)).map
          MessageView.withoutRead
        = (listed (getMessages s now U C limit before)).map MessageView.withoutRead) ∧
    (getMessages (getMessages s now U C limit before).store later U C limit before).status = 200 ∧
    (getMessages (getMessages s now U C limit before).store later U C limit before).store
      = (getMessages s now U C limit before).store := by
  refine ⟨?_, getMessages_status _ _ _ _ _ _, ?_⟩
  · intro hts
    rw [listed_withoutRead, listed_withoutRead, getMessages_store, conversation_markedRead,
      List.map_map]
    congr 3
    apply List.map_congr_left
    intro m hm
    exact toView_markedRead now later U C m (hts m hm)
  · rw [getMessages_store, getMessages_store]
    simp only [List.map_map]
    congr 1
    apply List.map_congr_left
    intro m _
    exact markedRead_idem U C m


theorem mem_conversation {s : Store} {U C : DocId} {m : Message} (h : m ∈ conversation s U C) :
    m ∈ s.messages ∧ U ∈ m.participants ∧
      ((m.senderId = U ∧ m.receiverId = C) ∨ (m.senderId = C ∧ m.receiverId = U)) := by
  unfold conversation at h
  simpa using h

/-- C15 (as amended) at a concrete store: user 2 lists the conversation with user 1 twice. -/
theorem listing_twice_is_idempotent_witness :
    (∀ m ∈ conversation helloSent 2 1, m.timestamp.isSome = true) ∧
    (listed (getMessages (getMessages helloSent 9000 2 1 none none).store 9500 2 1 none none)).map
        MessageView.withoutRead
      = (listed (getMessages helloSent 9000 2 1 none none)).map MessageView.withoutRead :=
  ⟨by decide, (listing_twice_is_idempotent helloSent 9000 9500 2 1 none none).1 (by decide)⟩

/-- C16 (as amended): with `eligible` the views of the stored messages that list `U` among the
participants and whose sender and receiver are `U` and `C`, sorted oldest first and, when
`before` is given, restricted to timestamps strictly earlier than it, the result of
`GET /messages/:contactId` is a prefix of `eligible` made only of such messages: the first 50
when `limit` is omitted, the first `n` (so at most `n` messages) when `limit` parses to
`n ≥ 0`, none when `limit` does not parse, and all but the last `-n` when it parses to `n < 0`. -/
theorem listing_is_capped_initial_segment (s : Store) (now : Int) (U C : DocId) (limit : Option String)
    (before : Option (Option Int)) :
    let eligible := (((conversation s U C).map (toView now)).insertionSort
      (fun a b => a.timestamp ≤ b.timestamp)).filter (isBefore before)
    eligible.Sorted (fun a b => a.timestamp ≤ b.timestamp) ∧
    eligible.Perm (((conversation s U C).map (toView now)).filter (isBefore before)) ∧
    listed (getMessages s now U C limit before) <+: eligible ∧
    (∀ v ∈ listed (getMessages s now U C limit before), ∃ m ∈ s.messages,
      v = toView now m ∧ U ∈ m.participants ∧
      ((m.senderId = U ∧ m.receiverId = C) ∨ (m.senderId = C ∧ m.receiverId = U)) ∧
      isBefore before v = true) ∧
    (limit = none → listed (getMessages s now U C limit before) = eligible.take 50) ∧
    (∀ text n, limit = some text → parseInt text = some n → 0 ≤ n →
      listed (getMessages s now U C limit before) = eligible.take n.toNat ∧
      ((listed (getMessages s now U C limit before)).length : Int) ≤ n) ∧
    (∀ text, limit = some text → parseInt text = none →
      listed (getMessages s now U C limit before) = []) ∧
    (∀ text n, limit = some text → parseInt text = some n → n < 0 →
      listed (getMessages s now U C limit before)
        = eligible.take (eligible.length - (-n).toNat)) := by
  haveI : IsTotal MessageView (fun a b => a.timestamp ≤ b.timestamp) :=
    ⟨fun a b => le_total a.timestamp b.timestamp⟩
  haveI : IsTrans MessageView (fun a b => a.timestamp ≤ b.timestamp) :=
    ⟨fun _ _ _ h1 h2 => le_trans h1 h2⟩
  intro eligible
  have hl : listed (getMessages s now U C limit before) = sliceTo eligible (limitValue limit) :=
    getMessages_listed s now U C limit before
  have hpre : listed (getMessages s now U C limit before) <+: eligible := by
    rw [hl]; exact sliceTo_initial_segment _ _
  refine ⟨(List.sorted_insertionSort _ _).filter _, (List.perm_insertionSort _ _).filter _,
    hpre, ?_, ?_, ?_, ?_, ?_⟩
  · intro v hv
    have hv' : v ∈ eligible := hpre.subset hv
    simp only [eligible, List.mem_filter, List.mem_insertionSort, List.mem_map] at hv'
    obtain ⟨⟨m, hm, rfl⟩, hb⟩ := hv'
    obtain ⟨h1, h2, h3⟩ := mem_conversation hm
    exact ⟨m, h1, rfl, h2, h3, hb⟩
  · intro hnone
    rw [hl, hnone]
    simp [limitValue, sliceTo]
  · intro text n htext hn hpos
    have : listed (getMessages s now U C limit before) = eligible.take n.toNat := by
      rw [hl, htext]
      simp [limitValue, hn, sliceTo, not_lt.mpr hpos]
    refine ⟨this, ?_⟩
    rw [this, List.length_take]
    have := Int.toNat_of_nonneg hpos
    omega
  · intro text htext hn
    rw [hl, htext]
    simp [limitValue, hn, sliceTo]
  · intro text n htext hn hneg
    rw [hl, htext]
    simp [limitValue, hn, sliceTo, hneg]

/-- C16 (as amended) at a concrete store: with two messages stored and `limit=1`, user 2 gets
the older one only. -/
theorem listing_is_capped_initial_segment_witness :
    parseInt "1" = some 1 ∧
    listed (getMessages twoHellos 9000 2 1 (some "1") none)
      = ((((conversation twoHellos 2 1).map (toView 9000)).insertionSort
          (fun a b => a.timestamp ≤ b.timestamp)).filter (isBefore none)).take (1 : Int).toNat ∧
    ((listed (getMessages twoHellos 9000 2 1 (some "1") none)).length : Int) ≤ 1 :=
  ⟨by decide,
    (listing_is_capped_initial_segment twoHellos 9000 2 1 (some "1") none).2.2.2.2.2.1 "1" 1 rfl
      (by decide) (by decide)⟩

/-- C16 (counterexample): with two messages from user 1 to user 2 stored and `limit=-1`, the
listing returns one message, more than the limit; and with an older message of the pair that
lists no participants, the listing starts at the newer one, so it is not a prefix of the
messages of the pair. -/
theorem negative_limit_drops_from_the_end :
    (parseInt "-1" = some (-1) ∧
      (listed (getMessages twoHellos 9000 2 1 (some "-1") none)).length = 1 ∧
      ¬ ((listed (getMessages twoHellos 9000 2 1 (some "-1") none)).length : Int) ≤ -1) ∧
    (listed (getMessages unindexed 9000 2 1 none none)
        = [⟨77, 1, 2, "hello", 5000, false, [1, 2]⟩] ∧
      ¬ listed (getMessages unindexed 9000 2 1 none none)
          <+: [⟨76, 1, 2, "old", 4000, false, []⟩, ⟨77, 1, 2, "hello", 5000, false, [1, 2]⟩]) := by
  decide

/-- C15 (counterexample): a stored message without timestamp is returned with the clock reading
of each call, so two listings at different instants differ in its timestamp. -/
theorem undated_message_changes_between_listings :
    (listed (getMessages undated 9000 2 1 none none)).map MessageView.withoutRead
      = [⟨77, 1, 2, "hello", 9000, false, [1, 2]⟩] ∧
    (listed (getMessages (getMessages undated 9000 2 1 none none).store 9500 2 1 none none)).map
        MessageView.withoutRead
      = [⟨77, 1, 2, "hello", 9500, false, [1, 2]⟩] ∧
    (listed (getMessages (getMessages undated 9000 2 1 none none).store 9500 2 1 none none)).map
        MessageView.withoutRead
      ≠ (listed (getMessages undated 9000 2 1 none none)).map MessageView.withoutRead := by
  decide

theorem toDate_fromDate (ms : Int) : (Timestamp.fromDate ms).toDate = ms := by
  unfold Timestamp.fromDate Timestamp.toDate
  simp only
  have h1 : 0 ≤ ms % 1000 := Int.emod_nonneg ms (by decide)
  have h2 : ms % 1000 < 1000 := Int.emod_lt_of_pos ms (by decide)
  have h3 : (((ms % 1000).toNat : Nat) : Int) = ms % 1000 := Int.toNat_of_nonneg h1
  have h4 : ((ms % 1000).toNat * 1000000 + 500000) / 1000000 = (ms % 1000).toNat := by omega
  rw [h4, h3]
  omega

theorem login_inv {s : Store} {now : Int} {compare : String → String → Bool}
    {newToken email password : String} {rememberMe : Bool}
    (h : (login s now compare newToken email password rememberMe).status = 200) :
    ∃ user, s.users.find? (fun u => u.email == email) = some user ∧
      (login s now compare newToken email password rememberMe).store
        = saveToken s user.id newToken
            (now + (if rememberMe then 30 else 1) * 24 * 60 * 60 * 1000) := by
  unfold login at h ⊢
  cases hu : s.users.find? (fun u => u.email == email) with
  | none => simp [hu] at h
  | some user =>
    simp only [hu] at h ⊢
    cases hp : user.password with
    | none => simp [hp] at h
    | some hash =>
      simp only [hp] at h ⊢
      by_cases h1 : hash = ""
      · simp [h1] at h
      · by_cases h2 : compare password hash = false
        · simp [h1, h2] at h
        · refine ⟨user, rfl, ?_⟩
          rw [if_neg h1, if_neg h2]

theorem find?_token_append_fresh (l : List SessionToken) (r : SessionToken)
    (hfresh : ∀ x ∈ l, x.token ≠ r.token) :
    (l ++ [r]).find? (fun t => t.token == r.token) = some r := by
  rw [List.find?_append]
  have : l.find? (fun t => t.token == r.token) = none := by
    rw [List.find?_eq_none]
    intro x hx
    simpa using hfresh x hx
  simp [this]

/-- Login followed by verifyToken when the issued token value is new to the store: a
successful login at instant `now` appends one session record, owned by the account found for
the email, with expiry exactly `now + 1 day` (`rememberMe` false) or `now + 30 days`
(`rememberMe` true), in milliseconds; when no earlier session record carries that token value
and the account's kind is allowed, verifyToken accepts the token at every instant up to and
including the expiry and answers 401 (expired) at every later instant. -/
theorem fresh_session_valid_until_expiry (s : Store) (now : Int)
    (compare : String → String → Bool) (newToken email password : String) (rememberMe : Bool)
    (hok : (login s now compare newToken email password rememberMe).status = 200)
    (hfresh : ∀ r ∈ s.session_tokens, r.token ≠ newToken) :
    ∃ account,
      s.users.find? (fun u => u.email == email) = some account ∧
      (login s now compare newToken email password rememberMe).store.session_tokens
        = s.session_tokens ++ [⟨account.id, newToken,
            Timestamp.fromDate (now + (if rememberMe then 30 else 1) * 86400000)⟩] ∧
      (Timestamp.fromDate (now + (if rememberMe then 30 else 1) * 86400000)).toDate
        = now + (if rememberMe then 30 else 1) * 86400000 ∧
      ∀ (allowedTypes : List String) (authorization : Option String) (later : Int) (owner : User),
        bearerToken authorization = some newToken → newToken ≠ "" →
        findUser s account.id = some owner → owner.type ∈ allowedTypes →
        (later ≤ now + (if rememberMe then 30 else 1) * 86400000 →
          verifyToken allowedTypes (login s now compare newToken email password rememberMe).store
            later authorization = .next ⟨account.id, owner.type⟩) ∧
        (now + (if rememberMe then 30 else 1) * 86400000 < later →
          verifyToken allowedTypes (login s now compare newToken email password rememberMe).store
            later authorization = .reject 401 "Token ha expirado.") := by
  obtain ⟨user, huserfound, hstore⟩ := login_inv hok
  have hexp : now + (if rememberMe then 30 else 1) * 24 * 60 * 60 * 1000
      = now + (if rememberMe then 30 else 1) * 86400000 := by
    cases rememberMe <;> simp
  rw [hstore, hexp]
  refine ⟨user, huserfound, rfl, toDate_fromDate _, ?_⟩
  intro allowedTypes authorization later owner hbearer hne howner hty
  have hfind : (saveToken s user.id newToken
      (now + (if rememberMe then 30 else 1) * 86400000)).session_tokens.find?
        (fun t => t.token == newToken)
      = some ⟨user.id, newToken,
          Timestamp.fromDate (now + (if rememberMe then 30 else 1) * 86400000)⟩ :=
    find?_token_append_fresh s.session_tokens
      ⟨user.id, newToken, Timestamp.fromDate (now + (if rememberMe then 30 else 1) * 86400000)⟩
      hfresh
  have huser : findUser (saveToken s user.id newToken
      (now + (if rememberMe then 30 else 1) * 86400000)) user.id = some owner := howner
  constructor
  · intro hle
    unfold verifyToken
    simp only [hbearer, hne, if_false, hfind, toDate_fromDate, not_lt.mpr hle, huser, hty,
      not_true_eq_false]
  · intro hlt
    unfold verifyToken
    simp only [hbearer, hne, if_false, hfind, toDate_fromDate, hlt, if_true]

/-- The first login of the account, at instant 1000 without `rememberMe`: the record belongs
to user 1 and expires at 86401000; with the header `Bearer jwt` verifyToken accepts at the
instant of issue and at the expiry, and answers 401 one millisecond later. -/
theorem first_login_valid_until_expiry :
    (login oneAccount 1000 (fun _ _ => true) "jwt" "a@x.com" "pw" false).status = 200 ∧
    loggedIn.session_tokens = [⟨1, "jwt", Timestamp.fromDate (1000 + 1 * 86400000)⟩] ∧
    verifyToken ["mortal"] loggedIn 1000 (some "Bearer jwt") = .next ⟨1, "mortal"⟩ ∧
    verifyToken ["mortal"] loggedIn 86401000 (some "Bearer jwt") = .next ⟨1, "mortal"⟩ ∧
    verifyToken ["mortal"] loggedIn 86401001 (some "Bearer jwt")
      = .reject 401 "Token ha expirado." := by
  decide

/-- C17 (the code at the failing input): the account logs in at instants 1000 and 1500
without `rememberMe` and `generateToken` returns the same value `jwt` both times; both logins
answer 200 and the second record is persisted with expiry exactly 1500 + 1 day = 86401500;
the user exists with the allowed kind; at instant 86401200, which is not later than that
expiry, verifyToken reads the first record carrying `jwt`, whose expiry is 86401000, and
answers 401 (expired) to the token the second login issued. -/
theorem second_login_token_refused_before_expiry :
    (login oneAccount 1000 (fun _ _ => true) "jwt" "a@x.com" "pw" false).status = 200 ∧
    (login loggedIn 1500 (fun _ _ => true) "jwt" "a@x.com" "pw" false).status = 200 ∧
    (login loggedIn 1500 (fun _ _ => true) "jwt" "a@x.com" "pw" false).store = twiceLoggedIn ∧
    twiceLoggedIn.session_tokens
      = loggedIn.session_tokens ++ [⟨1, "jwt", Timestamp.fromDate (1500 + 1 * 86400000)⟩] ∧
    (Timestamp.fromDate (1500 + 1 * 86400000)).toDate = 86401500 ∧
    (findUser twiceLoggedIn 1).map (fun u => u.type) = some "mortal" ∧
    verifyToken ["mortal"] twiceLoggedIn 1500 (some "Bearer jwt") = .next ⟨1, "mortal"⟩ ∧
    (86401200 : Int) ≤ 86401500 ∧
    verifyToken ["mortal"] twiceLoggedIn 86401200 (some "Bearer jwt")
      = .reject 401 "Token ha expirado." := by
  decide

/-- C18 (as amended): a route behind `verifyToken(allowedTypes)` answers 401 without running
the handler when the authorization header carries no token, when no session record has the
token, when the record's expiry is earlier than now, or when the record's user has no document;
it answers 403 without running the handler when that user's type is not in `allowedTypes`;
otherwise it runs the handler with `req.user = {id, type}` of the record's user; the store is
the one before the request in every refusal and the one handed to the handler otherwise. -/
theorem verifyToken_by_cases (allowedTypes : List String) (handler : Store → ReqUser → Outcome) (s : Store)
    (now : Int) (authorization : Option String) :
    ((bearerToken authorization = none ∨ bearerToken authorization = some "") →
      guarded allowedTypes handler s now authorization
        = ⟨401, .message "Acceso denegado. Token no proporcionado.", s, []⟩) ∧
    (∀ token, bearerToken authorization = some token → token ≠ "" →
      (s.session_tokens.find? (fun t => t.token == token) = none →
        guarded allowedTypes handler s now authorization
          = ⟨401, .message "Token inválido o no encontrado.", s, []⟩) ∧
      (∀ tokenData, s.session_tokens.find? (fun t => t.token == token) = some tokenData →
        (tokenData.expires_date.toDate < now →
          guarded allowedTypes handler s now authorization
            = ⟨401, .message "Token ha expirado.", s, []⟩) ∧
        (now ≤ tokenData.expires_date.toDate → findUser s tokenData.user_id = none →
          guarded allowedTypes handler s now authorization
            = ⟨401, .message "Usuario no encontrado.", s, []⟩) ∧
        (∀ userData, now ≤ tokenData.expires_date.toDate →
          findUser s tokenData.user_id = some userData → userData.type ∉ allowedTypes →
          guarded allowedTypes handler s now authorization
            = ⟨403, .message "Acceso denegado. Permisos insuficientes.", s, []⟩) ∧
        (∀ userData, now ≤ tokenData.expires_date.toDate →
          findUser s tokenData.user_id = some userData → userData.type ∈ allowedTypes →
          guarded allowedTypes handler s now authorization
            = handler s ⟨tokenData.user_id, userData.type⟩))) := by
  refine ⟨?_, ?_⟩
  · rintro (h | h)
    · simp only [guarded, verifyToken, h]
    · simp only [guarded, verifyToken, h, if_true]
  · intro token htok hne
    refine ⟨?_, ?_⟩
    · intro hnone
      simp only [guarded, verifyToken, htok, hne, if_false, hnone]
    · intro tokenData hfind
      refine ⟨?_, ?_, ?_, ?_⟩
      · intro hexp
        simp only [guarded, verifyToken, htok, hne, if_false, hfind, hexp, if_true]
      · intro hle hnone
        simp only [guarded, verifyToken, htok, hne, if_false, hfind, not_lt.mpr hle, hnone]
      · intro userData hle hu hty
        simp only [guarded, verifyToken, htok, hne, if_false, hfind, not_lt.mpr hle, hu, hty,
          not_false_eq_true, if_true]
      · intro userData hle hu hty
        simp only [guarded, verifyToken, htok, hne, if_false, hfind, not_lt.mpr hle, hu, hty,
          not_true_eq_false]

/-- C18 (as amended) at a concrete store: the session of user 1 passes the check for the kind
`mortal` and the handler runs with `req.user = {id: 1, type: "mortal"}`. -/
theorem verifyToken_by_cases_witness :
    guarded ["mortal"] (fun s user => markRead s user.id 2) loggedIn 2000 (some "Bearer jwt")
      = markRead loggedIn 1 2 :=
  (((verifyToken_by_cases ["mortal"] (fun s user => markRead s user.id 2) loggedIn 2000
      (some "Bearer jwt")).2 "jwt" (by decide) (by decide)).2
    ⟨1, "jwt", Timestamp.fromDate 86401000⟩ (by decide)).2.2.2
    { registeredUser 1 "Ana" "AAA111" with email := "a@x.com", password := some "hash" }
    (by decide) (by decide) (by decide)

/-- C18 (counterexample): the header carries a token, a session record has it and it has not
expired, but the record's user has no document: the answer is 401 and the handler does not
run. -/
theorem session_of_missing_user_is_refused :
    bearerToken (some "Bearer tok9") = some "tok9" ∧
    orphanSession.session_tokens.find? (fun t => t.token == "tok9")
      = some ⟨9, "tok9", Timestamp.fromDate 90000000⟩ ∧
    ¬ (Timestamp.fromDate 90000000).toDate < 1000 ∧
    verifyToken ["mortal"] orphanSession 1000 (some "Bearer tok9")
      = .reject 401 "Usuario no encontrado." ∧
    guarded ["mortal"] (fun s user => markRead s user.id 1) orphanSession 1000
        (some "Bearer tok9")
      = ⟨401, .message "Usuario no encontrado.", orphanSession, []⟩ := by
  decide

theorem logout_eq (s : Store) (k : String) :
    logout s k = ⟨200, .message "Token eliminado exitosamente!.",
      { s with session_tokens := s.session_tokens.eraseP (fun t => t.token == k) }, []⟩ := by
  unfold logout
  by_cases h : (s.session_tokens.filter (fun t => t.token == k)).isEmpty = true
  · simp only [h, if_true]
    rw [List.isEmpty_iff, List.filter_eq_nil_iff] at h
    have : s.session_tokens.eraseP (fun t => t.token == k) = s.session_tokens :=
      List.eraseP_of_forall_not h
    rw [this]
  · simp only [h]
    rfl

theorem filter_ne_eraseP {α : Type} (p : α → Bool) (l : List α) :
    (l.eraseP p).filter (fun x => !p x) = l.filter (fun x => !p x) := by
  induction l with
  | nil => rfl
  | cons x xs ih =>
    by_cases hx : p x = true
    · simp [List.eraseP_cons, hx]
    · simp [List.eraseP_cons, hx, ih]

theorem eraseP_eraseP_of_countP_le_one {α : Type} (p : α → Bool) (l : List α)
    (h : l.countP p ≤ 1) : (l.eraseP p).eraseP p = l.eraseP p :=
  List.eraseP_of_forall_not (fun e he => by
    have := not_mem_eraseP_of_countP_le_one p l h e he
    simp [this])

/-- Logout in every store: logout(k) answers 200 and deletes the first session record with
token `k`, if any; the records with another token value are unchanged; when at most one record
carried `k`, none carries it afterwards, verifyToken of `k` answers 401 and a second logout(k)
changes nothing more; when no record carried `k` the store is unchanged. -/
theorem logout_deletes_first_record (s : Store) (k : String) :
    (logout s k).status = 200 ∧
    (logout s k).store
      = { s with session_tokens := s.session_tokens.eraseP (fun t => t.token == k) } ∧
    (logout s k).store.session_tokens.filter (fun t => !(t.token == k))
      = s.session_tokens.filter (fun t => !(t.token == k)) ∧
    (s.session_tokens.countP (fun t => t.token == k) ≤ 1 →
      (∀ t ∈ (logout s k).store.session_tokens, t.token ≠ k) ∧
      (∀ (allowedTypes : List String) (now : Int) (authorization : Option String),
        bearerToken authorization = some k →
        verifyToken allowedTypes (logout s k).store now authorization
            = .reject 401 "Acceso denegado. Token no proporcionado." ∨
        verifyToken allowedTypes (logout s k).store now authorization
            = .reject 401 "Token inválido o no encontrado.") ∧
      logout (logout s k).store k = logout s k) ∧
    ((∀ t ∈ s.session_tokens, t.token ≠ k) → (logout s k).store = s) := by
  rw [logout_eq]
  refine ⟨rfl, rfl, filter_ne_eraseP _ _, ?_, ?_⟩
  · intro hc
    have hnone : ∀ t ∈ s.session_tokens.eraseP (fun t => t.token == k), t.token ≠ k := by
      intro t ht
      have := not_mem_eraseP_of_countP_le_one _ _ hc t ht
      simpa using this
    refine ⟨hnone, ?_, ?_⟩
    · intro allowedTypes now authorization hb
      by_cases hk : k = ""
      · left
        simp only [verifyToken, hb, hk, if_true]
      · right
        have hfind : (s.session_tokens.eraseP (fun t => t.token == k)).find?
            (fun t => t.token == k) = none := by
          rw [List.find?_eq_none]
          intro x hx
          simpa using hnone x hx
        simp only [verifyToken, hb, hk, if_false, hfind]
    · rw [logout_eq]
      simp only [eraseP_eraseP_of_countP_le_one _ _ hc]
  · intro habs
    have : s.session_tokens.eraseP (fun t => t.token == k) = s.session_tokens :=
      List.eraseP_of_forall_not (fun t ht => by simpa using habs t ht)
    simp only [this]

/-- Logout after a single login: the only session of the account is revoked. -/
theorem logout_deletes_first_record_witness :
    loggedIn.session_tokens.countP (fun t => t.token == "jwt") ≤ 1 ∧
    (∀ t ∈ (logout loggedIn "jwt").store.session_tokens, t.token ≠ "jwt") ∧
    logout (logout loggedIn "jwt").store "jwt" = logout loggedIn "jwt" :=
  have h := (logout_deletes_first_record loggedIn "jwt").2.2.2.1 (by decide)
  ⟨by decide, h.1, h.2.2⟩

/-- C19 (the code at the failing input): the account logs in at instants 1000 and 1500 and
`generateToken` returns the same value `jwt` both times, so two session records carry `jwt`;
logout("jwt") answers 200 and deletes the first record only: a record with token `jwt`
remains, verifyToken still accepts `jwt` for user 1, and a second logout("jwt") changes the
store again. -/
theorem logout_keeps_second_record :
    (login oneAccount 1000 (fun _ _ => true) "jwt" "a@x.com" "pw" false).status = 200 ∧
    (login loggedIn 1500 (fun _ _ => true) "jwt" "a@x.com" "pw" false).status = 200 ∧
    (login loggedIn 1500 (fun _ _ => true) "jwt" "a@x.com" "pw" false).store = twiceLoggedIn ∧
    twiceLoggedIn.session_tokens
      = [⟨1, "jwt", Timestamp.fromDate 86401000⟩, ⟨1, "jwt", Timestamp.fromDate 86401500⟩] ∧
    (logout twiceLoggedIn "jwt").status = 200 ∧
    (logout twiceLoggedIn "jwt").store.session_tokens
      = [⟨1, "jwt", Timestamp.fromDate 86401500⟩] ∧
    verifyToken ["mortal"] (logout twiceLoggedIn "jwt").store 2000 (some "Bearer jwt")
      = .next ⟨1, "mortal"⟩ ∧
    (logout (logout twiceLoggedIn "jwt").store "jwt").store
      ≠ (logout twiceLoggedIn "jwt").store := by
  decide

theorem findUser_of_mem {s : Store} (hu : UniqueIds s) {b : User} (hb : b ∈ s.users) :
    findUser s b.id = some b := by
  cases h : findUser s b.id with
  | none =>
    unfold findUser at h
    rw [List.find?_eq_none] at h
    exact absurd (by simp) (h b hb)
  | some x =>
    have hx : x ∈ s.users := List.mem_of_find?_eq_some h
    have hid : x.id = b.id := findUser_id h
    rw [eq_of_id_eq hu hx hb hid]

/-- C20 (as amended): friend-request(A, code of B) looks only at the queue of `B`: when `B` is
not `A`, not a contact of `A` and holds no entry sent by `A`, it succeeds, adds the entry of `A`
to the queue of `B` and leaves the queue of `A` as it was; so when the queue of `A` held an
entry sent by `B`, both directions are pending afterwards. -/
theorem request_ignores_reverse_entry (s : Store) (now : Int) (A : DocId) (code : String) (a b : User)
    (hu : UniqueIds s) (ha : findUser s A = some a)
    (hb : s.users.find? (fun u => u.friend_code == code) = some b)
    (hne : b.id ≠ A) (hc : b.id ∉ a.contacts.getD [])
    (hp : ∀ e ∈ b.pending_requests.getD [], e.senderId ≠ A) :
    (friendRequest s now A code).status = 200 ∧
    pendingOf (friendRequest s now A code).store A = pendingOf s A ∧
    (∃ e ∈ pendingOf (friendRequest s now A code).store b.id, e.senderId = A) ∧
    ((∃ e ∈ pendingOf s A, e.senderId = b.id) →
      MutualPending (friendRequest s now A code).store A b.id) := by
  have haid : a.id = A := findUser_id ha
  have h1 : a.id ≠ b.id := fun h => hne (haid ▸ h.symm)
  have h3 : (b.pending_requests.getD []).any (fun e => e.senderId == a.id) = false := by
    cases hb' : (b.pending_requests.getD []).any (fun e => e.senderId == a.id) with
    | false => rfl
    | true =>
      rw [List.any_eq_true] at hb'
      obtain ⟨e, he, heq⟩ := hb'
      exact absurd (by simpa [haid] using heq) (hp e he)
  rw [friendRequest_eq ha hb h1 hc h3]
  have hA : pendingOf (updateUser s b.id (fun u =>
      { u with pending_requests := some (arrayUnion u.pending_requests (newRequest a now)) })) A
      = pendingOf s A := by
    unfold pendingOf
    rw [findUser_updateUser _ _ _ _ ?_, ha]
    · simp [h1]
    · intro u; rfl
  have hB : ∃ e ∈ pendingOf (updateUser s b.id (fun u =>
      { u with pending_requests := some (arrayUnion u.pending_requests (newRequest a now)) })) b.id,
      e.senderId = A := by
    refine ⟨newRequest a now, ?_, haid⟩
    unfold pendingOf
    rw [findUser_updateUser _ _ _ _ ?_, findUser_of_mem hu (List.mem_of_find?_eq_some hb)]
    · simp [mem_arrayUnion]
    · intro u; rfl
  refine ⟨rfl, hA, hB, ?_⟩
  intro hrev
  exact ⟨hB, by rw [hA]; exact hrev⟩

/-- C20 (counterexample): from two registered users without pending requests, the request of
user 1 to user 2 followed by the request of user 2 to user 1 reaches a store in which both
directions are pending. -/
theorem both_directions_pending_reachable :
    NoPending twoUsers ∧
    runCalls twoUsers [.request 1000 1 "BBB222", .request 2000 2 "AAA111"] = crossed ∧
    MutualPending crossed 1 2 := by
  refine ⟨by unfold NoPending; decide, by decide, by unfold MutualPending; decide⟩

/-- C20 (as amended) at a concrete store: user 2 requests user 1 while the request of user 1 is
pending. -/
theorem request_ignores_reverse_entry_witness :
    (friendRequest requested 2000 2 "AAA111").status = 200 ∧
    MutualPending (friendRequest requested 2000 2 "AAA111").store 2 1 :=
  have h := request_ignores_reverse_entry requested 2000 2 "AAA111"
    { registeredUser 2 "Beto" "BBB222" with pending_requests := some [⟨1, "Ana", "", 1000⟩] }
    (registeredUser 1 "Ana" "AAA111") (by unfold UniqueIds; decide) (by decide) (by decide)
    (by decide) (by decide) (by decide)
  ⟨h.1, h.2.2.2 ⟨⟨1, "Ana", "", 1000⟩, by decide, rfl⟩⟩

theorem uniqueIds_updateUser {s : Store} (id : DocId) (f : User → User)
    (hf : ∀ u, (f u).id = u.id) (hu : UniqueIds s) : UniqueIds (updateUser s id f) := by
  unfold UniqueIds updateUser at *
  have : (s.users.map (fun u => if u.id = id then f u else u)).map (fun u => u.id)
      = s.users.map (fun u => u.id) := by
    rw [List.map_map]
    apply List.map_congr_left
    intro u _
    by_cases h : u.id = id <;> simp [h, hf]
  simpa [this] using hu

theorem queuesOk_updateUser {s : Store} (id : DocId) (f : User → User)
    (hf : ∀ u, (f u).id = u.id) (h : QueuesOk s)
    (hnew : ∀ u ∈ s.users, u.id = id → QueueOk u.id ((f u).pending_requests.getD [])) :
    QueuesOk (updateUser s id f) := by
  intro v hv
  unfold updateUser at hv
  simp only [List.mem_map] at hv
  obtain ⟨u, hu, rfl⟩ := hv
  by_cases hid : u.id = id
  · simp only [hid, if_true]
    rw [hf u]
    exact hnew u hu hid
  · simp only [hid, if_false]
    exact h u hu

theorem queueOk_sublist {owner : DocId} {l l' : List PendingRequest} (h : QueueOk owner l)
    (hs : List.Sublist l' l) : QueueOk owner l' :=
  ⟨fun sender => le_trans (hs.countP_le _) (h.1 sender), fun e he => h.2 e (hs.subset he)⟩

theorem queueOk_append_new {owner : DocId} {l : List PendingRequest} {e : PendingRequest}
    (h : QueueOk owner l) (hfresh : l.any (fun x => x.senderId == e.senderId) = false)
    (hself : e.senderId ≠ owner) : QueueOk owner (l ++ [e]) := by
  refine ⟨?_, ?_⟩
  · intro sender
    rw [List.countP_append]
    by_cases hs : e.senderId = sender
    · subst hs
      rw [countP_eq_zero_of_any_false _ _ hfresh]
      simp
    · have : [e].countP (fun x => x.senderId == sender) = 0 := by simp [hs]
      rw [this]
      exact h.1 sender
  · intro x hx
    rw [List.mem_append] at hx
    rcases hx with hx | hx
    · exact h.2 x hx
    · simp only [List.mem_singleton] at hx
      rw [hx]; exact hself


theorem friendRequest_store (s : Store) (now : Int) (A : DocId) (code : String) :
    (friendRequest s now A code).store = s ∨
    ∃ a r, findUser s A = some a ∧ s.users.find? (fun u => u.friend_code == code) = some r ∧
      a.id ≠ r.id ∧
      (r.pending_requests.getD []).any (fun e => e.senderId == a.id) = false ∧
      (friendRequest s now A code).store = updateUser s r.id (fun u =>
        { u with pending_requests := some (arrayUnion u.pending_requests (newRequest a now)) }) := by
  by_cases h : (friendRequest s now A code).status = 200
  · right
    obtain ⟨a, r, ha, hr, h1, h2, h3⟩ := friendRequest_inv h
    exact ⟨a, r, ha, hr, h1, h3, by rw [friendRequest_eq ha hr h1 h2 h3]⟩
  · left
    unfold friendRequest at h ⊢
    cases ha : findUser s A with
    | none => simp only [ha]
    | some a =>
      cases hr : s.users.find? (fun u => u.friend_code == code) with
      | none => simp only [ha, hr]
      | some r =>
        simp only [ha, hr] at h ⊢
        by_cases h1 : a.id = r.id
        · simp only [h1, if_true]
        · by_cases h2 : r.id ∈ a.contacts.getD []
          · simp only [h1, h2, if_true, if_false]
          · cases h3 : (r.pending_requests.getD []).any (fun e => e.senderId == a.id) with
            | true => simp only [h1, h2, h3, if_true, if_false]
            | false => simp [h1, h2, h3] at h

theorem acceptFriendRequest_store (s : Store) (R S : DocId) :
    (acceptFriendRequest s R S).store = s ∨
    ∃ r i, findUser s R = some r ∧
      (acceptFriendRequest s R S).store = updateUser
        (updateUser s R (fun u =>
          { u with contacts := some (arrayUnion u.contacts S)
                   pending_requests := some ((r.pending_requests.getD []).eraseIdx i) }))
        S (fun u => { u with contacts := some (arrayUnion u.contacts R) }) := by
  cases hr : findUser s R with
  | none => left; simp only [acceptFriendRequest, hr]
  | some r =>
    cases hi : (r.pending_requests.getD []).findIdx? (fun e => e.senderId == S) with
    | none => left; simp only [acceptFriendRequest, hr, hi]
    | some i =>
      cases hs : findUser s S with
      | none => left; simp only [acceptFriendRequest, hr, hi, hs]
      | some sd =>
        right
        exact ⟨r, i, rfl, by rw [acceptFriendRequest_eq hr hi hs]⟩

theorem rejectFriendRequest_store (s : Store) (R S : DocId) :
    (rejectFriendRequest s R S).store = s ∨
    ∃ r i, findUser s R = some r ∧
      (rejectFriendRequest s R S).store = updateUser s R (fun u =>
        { u with pending_requests := some ((r.pending_requests.getD []).eraseIdx i) }) := by
  cases hr : findUser s R with
  | none => left; simp only [rejectFriendRequest, hr]
  | some r =>
    cases hi : (r.pending_requests.getD []).findIdx? (fun e => e.senderId == S) with
    | none => left; simp only [rejectFriendRequest, hr, hi]
    | some i =>
      right
      exact ⟨r, i, rfl, by simp only [rejectFriendRequest, hr, hi]⟩

theorem runCall_keeps_queues (s : Store) (c : ContactCall) (hu : UniqueIds s)
    (hq : QueuesOk s) : UniqueIds (runCall s c) ∧ QueuesOk (runCall s c) := by
  cases c with
  | request now A code =>
    show UniqueIds (friendRequest s now A code).store ∧ QueuesOk (friendRequest s now A code).store
    rcases friendRequest_store s now A code with h | ⟨a, r, _, hr, h1, h3, h⟩
    · rw [h]; exact ⟨hu, hq⟩
    · rw [h]
      have hrmem : r ∈ s.users := List.mem_of_find?_eq_some hr
      refine ⟨uniqueIds_updateUser _ _ (fun _ => rfl) hu,
        queuesOk_updateUser _ _ (fun _ => rfl) hq ?_⟩
      intro u humem hid
      have hur : u = r := eq_of_id_eq hu humem hrmem hid
      subst hur
      show QueueOk u.id (arrayUnion u.pending_requests (newRequest a now))
      rw [arrayUnion_newRequest a u now h3]
      exact queueOk_append_new (hq u humem) h3 h1
  | accept R S =>
    show UniqueIds (acceptFriendRequest s R S).store ∧ QueuesOk (acceptFriendRequest s R S).store
    rcases acceptFriendRequest_store s R S with h | ⟨r, i, hr, h⟩
    · rw [h]; exact ⟨hu, hq⟩
    · rw [h]
      have hrmem : r ∈ s.users := List.mem_of_find?_eq_some hr
      have hrid : r.id = R := findUser_id hr
      have hq1 : QueuesOk (updateUser s R (fun u =>
          { u with contacts := some (arrayUnion u.contacts S)
                   pending_requests := some ((r.pending_requests.getD []).eraseIdx i) })) := by
        refine queuesOk_updateUser _ _ (fun _ => rfl) hq ?_
        intro u humem hid
        have hur : u = r := eq_of_id_eq hu humem hrmem (hid.trans hrid.symm)
        subst hur
        exact queueOk_sublist (hq u humem) (List.eraseIdx_sublist _ _)
      refine ⟨uniqueIds_updateUser _ _ (fun _ => rfl)
        (uniqueIds_updateUser _ _ (fun _ => rfl) hu),
        queuesOk_updateUser _ _ (fun _ => rfl) hq1 ?_⟩
      intro u humem _
      exact hq1 u humem
  | reject R S =>
    show UniqueIds (rejectFriendRequest s R S).store ∧ QueuesOk (rejectFriendRequest s R S).store
    rcases rejectFriendRequest_store s R S with h | ⟨r, i, hr, h⟩
    · rw [h]; exact ⟨hu, hq⟩
    · rw [h]
      have hrmem : r ∈ s.users := List.mem_of_find?_eq_some hr
      have hrid : r.id = R := findUser_id hr
      refine ⟨uniqueIds_updateUser _ _ (fun _ => rfl) hu,
        queuesOk_updateUser _ _ (fun _ => rfl) hq ?_⟩
      intro u humem hid
      have hur : u = r := eq_of_id_eq hu humem hrmem (hid.trans hrid.symm)
      subst hur
      exact queueOk_sublist (hq u humem) (List.eraseIdx_sublist _ _)

theorem runCalls_keeps_queues (calls : List ContactCall) (s : Store) (hu : UniqueIds s)
    (hq : QueuesOk s) : UniqueIds (runCalls s calls) ∧ QueuesOk (runCalls s calls) := by
  induction calls generalizing s with
  | nil => exact ⟨hu, hq⟩
  | cons c cs ih =>
    have h := runCall_keeps_queues s c hu hq
    exact ih (runCall s c) h.1 h.2

theorem queuesOk_of_noPending {s : Store} (h : NoPending s) : QueuesOk s := by
  intro u hu
  rw [h u hu]
  exact ⟨fun _ => by simp, fun e he => by simp at he⟩

/-- C21: in every store reached from a store with one document per id and empty pending
queues by a sequence of friend-request, accept-friend-request and reject-friend-request calls,
the queue of every user holds at most one entry per `senderId` and no entry sent by the user
itself. -/
theorem queues_hold_one_entry_per_sender (s0 : Store) (calls : List ContactCall) (hu : UniqueIds s0) (h0 : NoPending s0) :
    ∀ u ∈ (runCalls s0 calls).users,
      (∀ sender : DocId,
        (u.pending_requests.getD []).countP (fun e => e.senderId == sender) ≤ 1) ∧
      (∀ e ∈ u.pending_requests.getD [], e.senderId ≠ u.id) :=
  (runCalls_keeps_queues calls s0 hu (queuesOk_of_noPending h0)).2

/-- C21 at a concrete run: users 1 and 2 request each other, user 2 accepts, and user 1 sends
the same request again; the queue of user 1 then holds the one entry sent by user 2. -/
theorem queues_hold_one_entry_per_sender_witness :
    ({ registeredUser 1 "Ana" "AAA111" with
        contacts := some [2], pending_requests := some [⟨2, "Beto", "", 2000⟩] } : User)
      ∈ (runCalls twoUsers [.request 1000 1 "BBB222", .request 2000 2 "AAA111",
          .accept 2 1, .request 3000 1 "BBB222"]).users ∧
    ([⟨2, "Beto", "", 2000⟩] : List PendingRequest).countP (fun e => e.senderId == 2) ≤ 1 ∧
    ((⟨2, "Beto", "", 2000⟩ : PendingRequest).senderId ≠ 1) :=
  have h := queues_hold_one_entry_per_sender twoUsers
    [.request 1000 1 "BBB222", .request 2000 2 "AAA111", .accept 2 1, .request 3000 1 "BBB222"]
    (by unfold UniqueIds; decide) (by unfold NoPending; decide)
    { registeredUser 1 "Ana" "AAA111" with
      contacts := some [2], pending_requests := some [⟨2, "Beto", "", 2000⟩] }
    (by decide)
  ⟨by decide, h.1 2, h.2 ⟨2, "Beto", "", 2000⟩ (by decide)⟩

theorem forall₂_map_of_forall {α : Type} (R : α → α → Prop) (f : α → α) (l : List α)
    (h : ∀ x, R x (f x)) : List.Forall₂ R l (l.map f) := by
  induction l with
  | nil => exact List.Forall₂.nil
  | cons x xs ih => exact List.Forall₂.cons (h x) ih

theorem kept_refl (U C : DocId) (m : Message) : Kept U C m m :=
  ⟨rfl, rfl, rfl, rfl, rfl, rfl, fun h => h, fun h h' => by rw [h] at h'; exact Bool.noConfusion h'⟩

theorem kept_markedRead (U C : DocId) (m : Message) : Kept U C m (markedRead U C m) := by
  unfold markedRead
  by_cases h : U ∈ m.participants ∧ m.receiverId = U ∧ m.senderId = C ∧ m.read = false
  · rw [if_pos h]
    exact ⟨rfl, rfl, rfl, rfl, rfl, rfl, fun _ => rfl, fun _ _ => ⟨h.2.1, h.2.2.1⟩⟩
  · rw [if_neg h]
    exact kept_refl U C m

theorem sendMessage_messages (s : Store) (t0 t1 t2 : Timestamp) (newId A : DocId)
    (B : Option DocId) (content : String) :
    (sendMessage s t0 t1 t2 newId A B content).store.messages = s.messages ∨
    ∃ receiverId, (sendMessage s t0 t1 t2 newId A B content).store.messages
      = s.messages ++ [⟨newId, A, receiverId, content, some t0, false, [A, receiverId]⟩] := by
  unfold sendMessage
  cases B with
  | none => left; rfl
  | some receiverId =>
    by_cases hc : content = ""
    · left; simp only [hc, if_true]
    · simp only [hc, if_false]
      cases ha : findUser s A with
      | none => left; rfl
      | some a =>
        simp only []
        cases hcs : a.contacts with
        | none => left; rfl
        | some cs =>
          simp only []
          by_cases hm : receiverId ∉ cs
          · left; simp only [hm, not_false_eq_true, if_true]
          · right
            refine ⟨receiverId, ?_⟩
            simp only [hm, if_false]
            split <;> rfl

theorem markRead_messages (s : Store) (U C : DocId) :
    (markRead s U C).store.messages = s.messages ∨
    (markRead s U C).store.messages = s.messages.map (fun m =>
      if m.receiverId = U ∧ m.senderId = C ∧ m.read = false
      then { m with read := true } else m) := by
  unfold markRead
  by_cases h : (unreadQuery s U C).isEmpty = true
  · left; simp only [h, if_true]
  · simp only [h]
    cases hu : findUser s U with
    | none => left; rfl
    | some u => right; rfl

/-- C22: send-message leaves the stored messages as they are and adds at most one; after
`GET /messages/:contactId` and after mark-read by user `U` about contact `C`, the stored
messages are the same documents in the same order with every field but `read` unchanged, no
`read` flag has gone from `true` to `false`, and the flags that went from `false` to `true`
belong to messages sent by `C` to `U`. -/
theorem messages_are_kept_and_read_is_monotone (s : Store) :
    (∀ (t0 t1 t2 : Timestamp) (newId A : DocId) (B : Option DocId) (content : String),
      ∃ added : List Message, added.length ≤ 1 ∧
        (sendMessage s t0 t1 t2 newId A B content).store.messages = s.messages ++ added) ∧
    (∀ (now : Int) (U C : DocId) (limit : Option String) (before : Option (Option Int)),
      List.Forall₂ (Kept U C) s.messages (getMessages s now U C limit before).store.messages) ∧
    (∀ U C : DocId, List.Forall₂ (Kept U C) s.messages (markRead s U C).store.messages) := by
  refine ⟨?_, ?_, ?_⟩
  · intro t0 t1 t2 newId A B content
    rcases sendMessage_messages s t0 t1 t2 newId A B content with h | ⟨r, h⟩
    · exact ⟨[], by simp, by rw [h]; simp⟩
    · exact ⟨_, by simp, h⟩
  · intro now U C limit before
    rw [getMessages_store]
    exact forall₂_map_of_forall _ _ _ (kept_markedRead U C)
  · intro U C
    rcases markRead_messages s U C with h | h
    · rw [h]
      have := forall₂_map_of_forall (Kept U C) (fun m => m) s.messages (kept_refl U C)
      simpa using this
    · rw [h]
      apply forall₂_map_of_forall
      intro m
      by_cases hc : m.receiverId = U ∧ m.senderId = C ∧ m.read = false
      · rw [if_pos hc]
        exact ⟨rfl, rfl, rfl, rfl, rfl, rfl, fun _ => rfl, fun _ _ => ⟨hc.1, hc.2.1⟩⟩
      · rw [if_neg hc]
        exact kept_refl U C m

/-- The handshake in every store: the middleware accepts a connection exactly when the token
is present, a session record has it and the record has not expired, and binds the connection to
the record's `user_id`; with an allow-list holding the kind of every user, whatever verifyToken
accepts the handshake accepts with the same user id, and what the handshake accepts verifyToken
accepts when the record's user has a document and refuses with 401 when it has none; an
accepted connection joins the room of that user id and a refused one joins no room. -/
theorem handshake_agrees_when_user_exists (s : Store) (now : Int) (allowedTypes : List String)
    (authorization : Option String) (hall : ∀ u ∈ s.users, u.type ∈ allowedTypes) :
    (∀ userId, socketAuth s now (bearerToken authorization) = .accepted userId ↔
      ∃ token tokenData, bearerToken authorization = some token ∧ token ≠ "" ∧
        s.session_tokens.find? (fun t => t.token == token) = some tokenData ∧
        ¬ tokenData.expires_date.toDate < now ∧ tokenData.user_id = userId) ∧
    (∀ user, verifyToken allowedTypes s now authorization = .next user →
      socketAuth s now (bearerToken authorization) = .accepted user.id) ∧
    (∀ userId owner, socketAuth s now (bearerToken authorization) = .accepted userId →
      findUser s userId = some owner →
      verifyToken allowedTypes s now authorization = .next ⟨userId, owner.type⟩) ∧
    (∀ userId, socketAuth s now (bearerToken authorization) = .accepted userId →
      findUser s userId = none →
      verifyToken allowedTypes s now authorization = .reject 401 "Usuario no encontrado.") ∧
    (∀ userId, socketAuth s now (bearerToken authorization) = .accepted userId →
      roomsJoined s now (bearerToken authorization) = [userId]) ∧
    (∀ error, socketAuth s now (bearerToken authorization) = .refused error →
      roomsJoined s now (bearerToken authorization) = []) := by
  have key : ∀ userId, socketAuth s now (bearerToken authorization) = .accepted userId ↔
      ∃ token tokenData, bearerToken authorization = some token ∧ token ≠ "" ∧
        s.session_tokens.find? (fun t => t.token == token) = some tokenData ∧
        ¬ tokenData.expires_date.toDate < now ∧ tokenData.user_id = userId := by
    intro userId
    unfold socketAuth
    cases hb : bearerToken authorization with
    | none => simp
    | some token =>
      by_cases hne : token = ""
      · simp [hne]
      · cases hf : s.session_tokens.find? (fun t => t.token == token) with
        | none => simp [hne, hf]
        | some tokenData =>
          by_cases hexp : tokenData.expires_date.toDate < now
          · simp [hne, hf, hexp]
          · simp only [hne, if_false, hf, hexp, Handshake.accepted.injEq]
            constructor
            · intro h
              exact ⟨token, tokenData, rfl, hne, hf, hexp, h⟩
            · rintro ⟨token2, tokenData2, h1, _, h3, _, h5⟩
              have e1 : token2 = token := (Option.some.inj h1).symm
              subst e1
              rw [hf] at h3
              have e2 : tokenData2 = tokenData := (Option.some.inj h3).symm
              subst e2
              exact h5
  refine ⟨key, ?_, ?_, ?_, ?_, ?_⟩
  · intro user hv
    rw [key]
    unfold verifyToken at hv
    cases hb : bearerToken authorization with
    | none => simp [hb] at hv
    | some token =>
      simp only [hb] at hv
      by_cases hne : token = ""
      · simp [hne] at hv
      · simp only [hne, if_false] at hv
        cases hf : s.session_tokens.find? (fun t => t.token == token) with
        | none => simp [hf] at hv
        | some tokenData =>
          simp only [hf] at hv
          by_cases hexp : tokenData.expires_date.toDate < now
          · simp [hexp] at hv
          · simp only [hexp, if_false] at hv
            cases hu : findUser s tokenData.user_id with
            | none => simp [hu] at hv
            | some owner =>
              simp only [hu] at hv
              by_cases hty : owner.type ∉ allowedTypes
              · simp [hty] at hv
              · simp only [hty, if_false, Verdict.next.injEq] at hv
                refine ⟨token, tokenData, rfl, hne, hf, hexp, ?_⟩
                rw [← hv]
  · intro userId owner hs hu
    obtain ⟨token, tokenData, hb, hne, hf, hexp, hid⟩ := (key userId).mp hs
    have hty : owner.type ∈ allowedTypes := hall owner (List.mem_of_find?_eq_some hu)
    unfold verifyToken
    simp only [hb, hne, if_false, hf, hexp, hid, hu, hty, not_true_eq_false]
  · intro userId hs hu
    obtain ⟨token, tokenData, hb, hne, hf, hexp, hid⟩ := (key userId).mp hs
    unfold verifyToken
    simp only [hb, hne, if_false, hf, hexp, hid, hu]
  · intro userId hs
    simp only [roomsJoined, hs]
  · intro error hs
    simp only [roomsJoined, hs]

/-- The handshake after a single login: the session of user 1 opens a connection bound to
user 1, in the room of user 1. -/
theorem handshake_agrees_when_user_exists_witness :
    socketAuth loggedIn 2000 (bearerToken (some "Bearer jwt")) = .accepted 1 ∧
    roomsJoined loggedIn 2000 (bearerToken (some "Bearer jwt")) = [1] :=
  have h := handshake_agrees_when_user_exists loggedIn 2000 ["mortal", "admin"]
    (some "Bearer jwt") (by decide)
  ⟨h.2.1 ⟨1, "mortal"⟩ (by decide), h.2.2.2.2.1 1 (by decide)⟩

/-- C23 (the code at the failing input): the only session record is unexpired, carries the
token `tok9` and names user 9, who has no document; the handshake accepts `tok9`, binds the
connection to user 9 and joins room 9, while verifyToken, with an allow-list holding every
user kind, refuses the same token in the same store with 401 (user not found). -/
theorem handshake_accepts_session_of_missing_user :
    (∀ u ∈ orphanSession.users, u.type ∈ ["mortal", "admin"]) ∧
    bearerToken (some "Bearer tok9") = some "tok9" ∧
    socketAuth orphanSession 1000 (some "tok9") = .accepted 9 ∧
    roomsJoined orphanSession 1000 (some "tok9") = [9] ∧
    verifyToken ["mortal", "admin"] orphanSession 1000 (some "Bearer tok9")
      = .reject 401 "Usuario no encontrado." := by
  decide

theorem not_lineTerminator_of_inPasswordClass (c : Char) (h : inPasswordClass c = true) :
    isLineTerminator c = false := by
  unfold inPasswordClass isUpperLetter isLowerLetter isDigitChar isSpecialChar at h
  unfold isLineTerminator
  generalize c.toNat = n at h ⊢
  simp at h
  simp
  omega

theorem lookahead_iff (cls : Char → Bool) (cs : List Char)
    (h : ∀ c ∈ cs, isLineTerminator c = false) :
    lookahead cls cs = true ↔ ∃ c ∈ cs, cls c = true := by
  induction cs with
  | nil => simp [lookahead]
  | cons c cs ih =>
    have hc : isLineTerminator c = false := h c (by simp)
    have ih' := ih (fun x hx => h x (by simp [hx]))
    simp only [lookahead, hc, Bool.not_false, Bool.true_and, Bool.or_eq_true, ih',
      List.mem_cons, exists_eq_or_imp]

theorem lookahead_imp_exists (cls : Char → Bool) (cs : List Char)
    (h : lookahead cls cs = true) : ∃ c ∈ cs, cls c = true := by
  induction cs with
  | nil => simp [lookahead] at h
  | cons c cs ih =>
    simp only [lookahead, Bool.or_eq_true, Bool.and_eq_true] at h
    rcases h with h | ⟨_, h⟩
    · exact ⟨c, by simp, h⟩
    · obtain ⟨x, hx, hcx⟩ := ih h
      exact ⟨x, by simp [hx], hcx⟩

theorem passwordRegexTest_iff (p : String) :
    passwordRegexTest p = true ↔
      MeetsStatedRequirements p ∧ ∀ c ∈ p.toList, inPasswordClass c = true := by
  unfold passwordRegexTest MeetsStatedRequirements
  have hlen : p.length = p.toList.length := rfl
  constructor
  · intro h
    simp only [Bool.and_eq_true, decide_eq_true_eq, List.all_eq_true] at h
    obtain ⟨⟨⟨⟨⟨h1, h2⟩, h3⟩, h4⟩, h5⟩, h6⟩ := h
    exact ⟨⟨by rw [hlen]; exact h6, lookahead_imp_exists _ _ h2, lookahead_imp_exists _ _ h1,
      lookahead_imp_exists _ _ h3, lookahead_imp_exists _ _ h4⟩, h5⟩
  · rintro ⟨⟨h6, h2, h1, h3, h4⟩, h5⟩
    have hlt : ∀ c ∈ p.toList, isLineTerminator c = false :=
      fun c hc => not_lineTerminator_of_inPasswordClass c (h5 c hc)
    simp only [Bool.and_eq_true, decide_eq_true_eq, List.all_eq_true]
    exact ⟨⟨⟨⟨⟨(lookahead_iff _ _ hlt).mpr h1, (lookahead_iff _ _ hlt).mpr h2⟩,
      (lookahead_iff _ _ hlt).mpr h3⟩, (lookahead_iff _ _ hlt).mpr h4⟩, h5⟩,
      by rw [← hlen]; exact h6⟩

theorem updatePassword_refused (s : Store) (t : Timestamp) (hashedPassword email p : String)
    (account : User) (hemail : email ≠ "")
    (haccount : s.users.find? (fun u => u.email == email) = some account)
    (hgoogle : account.isGoogleAccount = false) (htest : passwordRegexTest p = false) :
    (updatePassword s t hashedPassword email p).status = 400 ∧
    (updatePassword s t hashedPassword email p).store = s := by
  unfold updatePassword
  by_cases hp : p = ""
  · rw [if_pos (Or.inr hp)]
    exact ⟨rfl, rfl⟩
  · rw [if_neg (by simp [hemail, hp])]
    simp [haccount, hgoogle, htest]

theorem updatePassword_accepted (s : Store) (t : Timestamp) (hashedPassword email p : String)
    (account : User) (hemail : email ≠ "")
    (haccount : s.users.find? (fun u => u.email == email) = some account)
    (hgoogle : account.isGoogleAccount = false) (htest : passwordRegexTest p = true) :
    (updatePassword s t hashedPassword email p).status = 200 := by
  have hp : p ≠ "" := by
    rintro rfl
    exact absurd htest (by decide)
  unfold updatePassword
  rw [if_neg (by simp [hemail, hp])]
  simp only [haccount, hgoogle, htest, Bool.false_eq_true, Bool.true_eq_false, if_false]

/-- C24 (as amended): for an existing account that is not a Google account, update-password
accepts `p` (answers 200) exactly when `p` has at least 8 characters, holds an uppercase letter,
a lowercase letter, a digit and a special character of the list, and consists only of such
letters, digits and special characters; otherwise it answers 400 and the store, with the stored
password and every session token, is unchanged. -/
theorem password_is_accepted_iff_strong_and_in_class (s : Store) (t : Timestamp) (hashedPassword email p : String) (account : User)
    (hemail : email ≠ "")
    (haccount : s.users.find? (fun u => u.email == email) = some account)
    (hgoogle : account.isGoogleAccount = false) :
    ((updatePassword s t hashedPassword email p).status = 200 ↔
      MeetsStatedRequirements p ∧ ∀ c ∈ p.toList, inPasswordClass c = true) ∧
    ((updatePassword s t hashedPassword email p).status ≠ 200 →
      (updatePassword s t hashedPassword email p).status = 400 ∧
      (updatePassword s t hashedPassword email p).store = s) := by
  rw [← passwordRegexTest_iff]
  cases htest : passwordRegexTest p with
  | false =>
    have h := updatePassword_refused s t hashedPassword email p account hemail haccount hgoogle
      htest
    refine ⟨⟨fun h200 => ?_, fun hf => absurd hf (by decide)⟩, fun _ => h⟩
    rw [h.1] at h200
    exact absurd h200 (by decide)
  | true =>
    have h := updatePassword_accepted s t hashedPassword email p account hemail haccount
      hgoogle htest
    exact ⟨⟨fun _ => rfl, fun _ => h⟩, fun hne => absurd h hne⟩

/-- C24 (as amended) at a concrete store: the account changes its password to `Passw0rd!`. -/
theorem password_is_accepted_iff_strong_and_in_class_witness :
    (updatePassword oneAccount ⟨9, 0⟩ "hash2" "a@x.com" "Passw0rd!").status = 200 :=
  (password_is_accepted_iff_strong_and_in_class oneAccount ⟨9, 0⟩ "hash2" "a@x.com" "Passw0rd!"
    { registeredUser 1 "Ana" "AAA111" with email := "a@x.com", password := some "hash" }
    (by decide) (by decide) (by decide)).1.mpr
    ⟨by unfold MeetsStatedRequirements; decide, by decide⟩

/-- C24 (counterexample): `Passw0rd!_` has 10 characters, an uppercase letter, a lowercase
letter, a digit and the special character `!`, and update-password answers 400 for it, the
store unchanged: the underscore is not in the class of the regular expression. -/
theorem password_with_other_character_is_refused :
    oneAccount.users.find? (fun u => u.email == "a@x.com")
      = some { registeredUser 1 "Ana" "AAA111" with email := "a@x.com", password := some "hash" } ∧
    (8 ≤ "Passw0rd!_".length ∧ (∃ c ∈ "Passw0rd!_".toList, isUpperLetter c = true) ∧
      (∃ c ∈ "Passw0rd!_".toList, isLowerLetter c = true) ∧
      (∃ c ∈ "Passw0rd!_".toList, isDigitChar c = true) ∧
      (∃ c ∈ "Passw0rd!_".toList, isSpecialChar c = true)) ∧
    updatePassword oneAccount ⟨9, 0⟩ "hash2" "a@x.com" "Passw0rd!_"
      = ⟨400, .message ("La contraseña debe tener al menos 8 caracteres, una mayúscula, " ++
          "una minúscula, un número y un carácter especial"), oneAccount, []⟩ := by
  decide

end AstroChat
